import Mathlib

/-!
Shallow embedding of the booking data-quality auditor
(`Data_Quality.py`, function `analyze_data_quality`) together with proofs
about its checks.  Tables are modelled column-wise; floating-point numbers
are modelled exactly as rationals, `Option` captures missing values
(`NaN`/`NaT`), and a dedicated type captures the non-finite results that
numpy division produces instead of raising an exception.
-/

namespace DataQuality

/-- A scalar cell of the loaded table: missing (`NaN`), numeric, or text. -/
inductive Cell where
  | null
  | num (q : ℚ)
  | str (s : String)
deriving DecidableEq, Repr

/-- Python substring test `needle in hay` on strings. -/
def strContainsSub (hay needle : String) : Bool :=
  decide (needle.data <:+: hay.data)

/-- Keyword list for date-like column names (line 50 of `Data_Quality.py`). -/
def dateKeywords : List String := ["date", "time", "at"]

/-- Keyword list for numeric-like column names (line 51). -/
def numericKeywords : List String := ["cost", "charge", "price", "amount", "size", "days"]

/-- Keywords marking a should-be-non-negative quantity (line 257). -/
def negCheckKeywords : List String := ["cost", "price", "amount", "size"]

/-- Python `str.lower`, applied characterwise. -/
def pyLower (s : String) : String := String.mk (s.data.map Char.toLower)

/-- Column-name keyword matching `any(keyword in col.lower() for keyword in ...)`. -/
def nameMatches (keywords : List String) (colName : String) : Bool :=
  keywords.any (fun k => strContainsSub (pyLower colName) k)

/-- The loaded table: a row count and the ordered, named columns. -/
structure Table where
  rowCount : ℕ
  cols : List (String × List Cell)

/-- Well-formedness: every column has exactly `rowCount` cells. -/
def Table.WF (t : Table) : Prop := ∀ p ∈ t.cols, p.2.length = t.rowCount

/-- Column lookup `df[name]`, `none` when the column is absent. -/
def Table.getCol (t : Table) (name : String) : Option (List Cell) :=
  (t.cols.find? (fun p => p.1 == name)).map (fun p => p.2)

/-- Column-presence test `name in df.columns`. -/
def Table.hasCol (t : Table) (name : String) : Bool :=
  (t.cols.find? (fun p => p.1 == name)).isSome

/-- Column lookup with default, used once presence has been established. -/
def Table.colD (t : Table) (name : String) : List Cell :=
  (t.getCol name).getD []

/-- Column assignment `df[name] = cells`: replaces the column in place when
the name already exists, otherwise appends it as the last column. -/
def Table.setCol (t : Table) (name : String) (cells : List Cell) : Table :=
  if t.hasCol name then
    { t with cols := t.cols.map (fun p => if p.1 == name then (name, cells) else p) }
  else { t with cols := t.cols ++ [(name, cells)] }

/-- The table viewed row-wise, the input of `df.duplicated()`. -/
def Table.rows (t : Table) : List (List Cell) :=
  (List.range t.rowCount).map (fun i => t.cols.map (fun p => p.2.getD i Cell.null))

/-- A numpy floating-point result: a finite value or one of the non-finite
values that numpy division by zero produces instead of raising. -/
inductive NpVal where
  | nan
  | posInf
  | negInf
  | fin (q : ℚ)
deriving DecidableEq, Repr

/-- numpy true division: `0/0` is NaN and `±a/0` is `±inf`; no exception. -/
def npDiv (a b : ℚ) : NpVal :=
  if b = 0 then
    if a = 0 then NpVal.nan else if 0 < a then NpVal.posInf else NpVal.negInf
  else NpVal.fin (a / b)

/-- Multiplication of a numpy value by the positive constant 100. -/
def NpVal.times100 : NpVal → NpVal
  | NpVal.nan => NpVal.nan
  | NpVal.posInf => NpVal.posInf
  | NpVal.negInf => NpVal.negInf
  | NpVal.fin q => NpVal.fin (q * 100)

/-- One column's `df[col].isnull().sum()`. -/
def missingCount (cells : List Cell) : ℕ :=
  cells.countP (fun c => c == Cell.null)

/-- Per-column missing count and percentage, lines 74-75:
`df.isnull().sum()` and `df.isnull().sum() / len(df) * 100`. -/
def missingPerColumn (t : Table) : List (String × ℕ × NpVal) :=
  t.cols.map (fun p =>
    (p.1, missingCount p.2, (npDiv (missingCount p.2 : ℚ) (t.rowCount : ℚ)).times100))

/-- Total missing cells `missing_values.sum()` (line 79). -/
def totalMissing (t : Table) : ℕ := (t.cols.map (fun p => missingCount p.2)).sum

/-- `df.size` (line 80): row count times column count. -/
def totalCells (t : Table) : ℕ := t.rowCount * t.cols.length

/-- The overall missing percentage `total_missing/total_cells*100` (line 81). -/
def overallMissingPct (t : Table) : NpVal :=
  (npDiv (totalMissing t : ℚ) (totalCells t : ℚ)).times100

/-- Marks-after-first duplicate counting, the semantics of pandas
`duplicated().sum()`: an element counts when it already occurred earlier
(`seen` holds the elements already passed). -/
def duplicatedCountAux {α : Type} [DecidableEq α] : List α → List α → ℕ
  | _, [] => 0
  | seen, x :: xs => (if x ∈ seen then 1 else 0) + duplicatedCountAux (x :: seen) xs

/-- `series.duplicated().sum()`: every occurrence after the first counts,
with null values comparing equal to each other. -/
def duplicatedCount {α : Type} [DecidableEq α] (l : List α) : ℕ :=
  duplicatedCountAux [] l

/-- `df.duplicated().sum()` (line 103), the table given as its row list. -/
def dfDuplicateRowCount (rows : List (List Cell)) : ℕ := duplicatedCount rows

/-- The duplicate-row percentage `duplicates/len(df)*100` (line 104). -/
def duplicateRowPct (t : Table) : NpVal :=
  (npDiv (dfDuplicateRowCount t.rows : ℚ) (t.rowCount : ℚ)).times100

/-- `df[id].duplicated().sum()` for the optional identifier checks
(lines 107-113). -/
def idDuplicateCount (cells : List Cell) : ℕ := duplicatedCount cells

lemma duplicatedCountAux_add_card {α : Type} [DecidableEq α] (l : List α) :
    ∀ seen : List α,
      duplicatedCountAux seen l + (l.toFinset \ seen.toFinset).card = l.length := by
  induction l with
  | nil => intro seen; simp [duplicatedCountAux]
  | cons x xs ih =>
    intro seen
    by_cases hx : x ∈ seen
    · have hxf : x ∈ seen.toFinset := List.mem_toFinset.mpr hx
      have hseen : (x :: seen).toFinset = seen.toFinset := by
        rw [List.toFinset_cons, Finset.insert_eq_self.mpr hxf]
      have hset : (x :: xs).toFinset \ seen.toFinset = xs.toFinset \ seen.toFinset := by
        rw [List.toFinset_cons]
        exact Finset.insert_sdiff_of_mem _ hxf
      have h := ih (x :: seen)
      rw [hseen] at h
      simp only [duplicatedCountAux, if_pos hx, hset, List.length_cons]
      omega
    · have hxf : x ∉ seen.toFinset := fun hmem => hx (List.mem_toFinset.mp hmem)
      have h := ih (x :: seen)
      rw [List.toFinset_cons, Finset.sdiff_insert] at h
      have hset : (x :: xs).toFinset \ seen.toFinset =
          insert x (xs.toFinset \ seen.toFinset) := by
        rw [List.toFinset_cons]
        ext a
        simp only [Finset.mem_sdiff, Finset.mem_insert]
        constructor
        · rintro ⟨ha | ha, hb⟩
          · exact Or.inl ha
          · exact Or.inr ⟨ha, hb⟩
        · rintro (ha | ⟨ha, hb⟩)
          · exact ⟨Or.inl ha, ha ▸ hxf⟩
          · exact ⟨Or.inr ha, hb⟩
      have hins : insert x (xs.toFinset \ seen.toFinset) =
          insert x ((xs.toFinset \ seen.toFinset).erase x) := by
        ext a
        simp only [Finset.mem_insert, Finset.mem_erase]
        constructor
        · rintro (ha | ha)
          · exact Or.inl ha
          · by_cases hax : a = x
            · exact Or.inl hax
            · exact Or.inr ⟨hax, ha⟩
        · rintro (ha | ⟨_, ha⟩)
          · exact Or.inl ha
          · exact Or.inr ha
      have hcard : (insert x (xs.toFinset \ seen.toFinset)).card =
          ((xs.toFinset \ seen.toFinset).erase x).card + 1 := by
        rw [hins]
        exact Finset.card_insert_of_not_mem (Finset.not_mem_erase x _)
      simp only [duplicatedCountAux, if_neg hx, hset, hcard, List.length_cons]
      omega

lemma duplicatedCount_add_card {α : Type} [DecidableEq α] (l : List α) :
    duplicatedCount l + l.toFinset.card = l.length := by
  have h := duplicatedCountAux_add_card l []
  simpa [duplicatedCount] using h

/-- C8: the duplicate-row count computed by the duplicate-records check is
invariant under any permutation of the table's rows. -/
theorem C8_duplicate_row_count_perm_invariant (rows₁ rows₂ : List (List Cell))
    (h : rows₁.Perm rows₂) :
    dfDuplicateRowCount rows₁ = dfDuplicateRowCount rows₂ := by
  have h1 := duplicatedCount_add_card rows₁
  have h2 := duplicatedCount_add_card rows₂
  have hlen := h.length_eq
  have hfin : rows₁.toFinset = rows₂.toFinset := List.toFinset_eq_of_perm _ _ h
  rw [hfin] at h1
  unfold dfDuplicateRowCount
  omega

/-- Witness for C8 at a concrete pair of permuted row lists. -/
theorem C8_duplicate_row_count_perm_invariant_witness :
    ([[Cell.num 1], [Cell.num 1], [Cell.num 2]] : List (List Cell)).Perm
        [[Cell.num 2], [Cell.num 1], [Cell.num 1]] ∧
    dfDuplicateRowCount [[Cell.num 1], [Cell.num 1], [Cell.num 2]] =
      dfDuplicateRowCount [[Cell.num 2], [Cell.num 1], [Cell.num 1]] :=
  ⟨by decide, C8_duplicate_row_count_perm_invariant _ _ (by decide)⟩

/-- C10: the identifier duplicate count marks every occurrence after the
first: it equals row count minus the number of distinct values (nulls
comparing equal to each other), a value occurring k times contributing
exactly k-1; concrete conjuncts show the null behaviour and that the count
is not the number of distinct duplicated values. -/
theorem C10_id_duplicates_mark_all_after_first :
    (∀ cells : List Cell,
        idDuplicateCount cells = cells.length - cells.toFinset.card ∧
        idDuplicateCount cells = ∑ v ∈ cells.toFinset, (cells.count v - 1)) ∧
    idDuplicateCount [Cell.null, Cell.null] = 1 ∧
    idDuplicateCount [Cell.num 1, Cell.num 1, Cell.num 1] = 2 := by
  refine ⟨fun cells => ⟨?_, ?_⟩, by decide, by decide⟩
  · have h := duplicatedCount_add_card cells
    unfold idDuplicateCount
    omega
  · have hsum : ∑ v ∈ cells.toFinset, cells.count v = cells.length :=
      by simp
    have hpos : ∀ v ∈ cells.toFinset, cells.count v - 1 + 1 = cells.count v := by
      intro v hv
      have : 0 < cells.count v := List.count_pos_iff.mpr (List.mem_toFinset.mp hv)
      omega
    have hsplit : (∑ v ∈ cells.toFinset, (cells.count v - 1)) + cells.toFinset.card =
        ∑ v ∈ cells.toFinset, cells.count v := by
      rw [Finset.card_eq_sum_ones, ← Finset.sum_add_distrib]
      exact Finset.sum_congr rfl hpos
    have h := duplicatedCount_add_card cells
    unfold idDuplicateCount
    omega

/-- C5: on a table with zero rows, every percentage in the missingness and
duplication checks is a numpy division with zero denominator that yields
NaN (the indeterminate 0/0) rather than raising, and all counts are zero. -/
theorem C5_empty_table_percentages_safe (t : Table) (hwf : t.WF)
    (h0 : t.rowCount = 0) :
    totalMissing t = 0 ∧
    overallMissingPct t = NpVal.nan ∧
    (∀ p ∈ missingPerColumn t, p.2.1 = 0 ∧ p.2.2 = NpVal.nan) ∧
    dfDuplicateRowCount t.rows = 0 ∧
    duplicateRowPct t = NpVal.nan := by
  have hcells : ∀ p ∈ t.cols, p.2 = [] := by
    intro p hp
    have := hwf p hp
    rw [h0] at this
    exact List.length_eq_zero.mp this
  have hmiss : ∀ p ∈ t.cols, missingCount p.2 = 0 := by
    intro p hp
    rw [hcells p hp]
    rfl
  have htm : totalMissing t = 0 := by
    unfold totalMissing
    apply List.sum_eq_zero
    intro x hx
    rcases List.mem_map.mp hx with ⟨p, hp, rfl⟩
    exact hmiss p hp
  have hrows : t.rows = [] := by
    unfold Table.rows
    rw [h0]
    rfl
  refine ⟨htm, ?_, ?_, ?_, ?_⟩
  · unfold overallMissingPct totalCells
    rw [htm, h0]
    simp [npDiv, NpVal.times100]
  · intro p hp
    rcases List.mem_map.mp hp with ⟨q, hq, rfl⟩
    refine ⟨hmiss q hq, ?_⟩
    simp only [hmiss q hq, h0]
    simp [npDiv, NpVal.times100]
  · rw [hrows]
    rfl
  · unfold duplicateRowPct
    rw [hrows, h0]
    simp [dfDuplicateRowCount, duplicatedCount, duplicatedCountAux, npDiv, NpVal.times100]

/-- Witness for C5 at a concrete empty table with one column. -/
theorem C5_empty_table_percentages_safe_witness :
    overallMissingPct (Table.mk 0 [("Booking ID", [])]) = NpVal.nan ∧
    duplicateRowPct (Table.mk 0 [("Booking ID", [])]) = NpVal.nan :=
  have h := C5_empty_table_percentages_safe (Table.mk 0 [("Booking ID", [])])
    (by intro p hp; simp only [List.mem_singleton] at hp; subst hp; rfl) rfl
  ⟨h.2.1, h.2.2.2.2⟩

/-- The numeric value of a cell, `none` for `NaN` or text.  (In a numeric
column every cell is `num` or `null`.) -/
def cellNum : Cell → Option ℚ
  | Cell.num q => some q
  | _ => none

/-- The non-null numeric values of a column, in order. -/
def numericValues (cells : List Cell) : List ℚ := cells.filterMap cellNum

/-- pandas `Series.quantile(q)` with the default linear interpolation over
the sorted non-null values; `none` models the NaN returned for an empty or
all-null column. -/
def pandasQuantile (xs : List ℚ) (q : ℚ) : Option ℚ :=
  match xs.length with
  | 0 => none
  | Nat.succ m =>
    let ys := xs.insertionSort (fun a b => a ≤ b)
    let pos : ℚ := (m : ℚ) * q
    let j : ℕ := (Int.floor pos).toNat
    let lo := ys.getD j 0
    let hi := ys.getD (j + 1) lo
    some (lo + (pos - (j : ℚ)) * (hi - lo))

/-- Elementwise pandas comparison `value < bound`: false when either side
is `NaN`. -/
def cellBelow (c : Cell) (bound : Option ℚ) : Bool :=
  match cellNum c, bound with
  | some x, some b => decide (x < b)
  | _, _ => false

/-- Elementwise pandas comparison `value > bound`: false when either side
is `NaN`. -/
def cellAbove (c : Cell) (bound : Option ℚ) : Bool :=
  match cellNum c, bound with
  | some x, some b => decide (b < x)
  | _, _ => false

/-- The per-column outlier finding of check 5 (lines 121-128 and 136-142). -/
structure OutFinding where
  lowerBound : Option ℚ
  upperBound : Option ℚ
  outlierCount : ℕ
  pct : ℚ
  samples : List ℚ
  samplesListed : Bool
deriving DecidableEq, Repr

/-- `detect_outliers` together with the reporting in the loop body
(lines 121-128, 136-142): IQR fences from the quartiles, outliers strictly
outside them, percentage `len(outliers)/len(df)*100` (a Python integer
division that raises `ZeroDivisionError` on an empty frame), and samples
`outliers[col].head()` (the first five outlier values) listed when
`0 < len(outliers) < 10`.  `none` bounds model NaN fences, under which no
row compares as an outlier. -/
def outlierStep (rowCount : ℕ) (cells : List Cell) : Except String OutFinding :=
  let xs := numericValues cells
  let q1 := pandasQuantile xs (1/4)
  let q3 := pandasQuantile xs (3/4)
  let lb : Option ℚ := match q1, q3 with
    | some a, some b => some (a - (3/2) * (b - a))
    | _, _ => none
  let ub : Option ℚ := match q1, q3 with
    | some a, some b => some (b + (3/2) * (b - a))
    | _, _ => none
  let outliers := cells.filter (fun c => cellBelow c lb || cellAbove c ub)
  if rowCount = 0 then Except.error "division by zero"
  else
    let n := outliers.length
    Except.ok
      { lowerBound := lb, upperBound := ub, outlierCount := n
      , pct := (n : ℚ) / (rowCount : ℚ) * 100
      , samples := (outliers.filterMap cellNum).take 5
      , samplesListed := decide (0 < n) && decide (n < 10) }

/-- The fixed allow-list of outlier columns (lines 131-132). -/
def keyNumericCols : List String :=
  ["Party Size", "Search Days Ahead", "Reservation Days Ahead",
   "Total Cost ($)", "Reservation Cost ($)"]

/-- pandas dtype inference for a loaded column (`is_numeric_dtype`): a
column is numeric when it is non-empty and no value is text (`read_csv`
loads all-numeric or all-null non-empty columns as float64, and a 0-row
column as object). -/
def isNumericDtype (cells : List Cell) : Bool :=
  !cells.isEmpty && cells.all (fun c => match c with | Cell.str _ => false | _ => true)

/-- The result of one per-column analysis: either a finding or the skip
message printed by the except-branch of that check. -/
inductive CheckItem (α : Type) where
  | analyzed (f : α)
  | skip (msg : String)
deriving DecidableEq, Repr

/-- Converts the `Except` outcome of a per-column step into the reported
item, `mk` building the check's could-not-analyze message. -/
def runExcept {α : Type} (mk : String → String) : Except String α → CheckItem α
  | Except.ok f => CheckItem.analyzed f
  | Except.error e => CheckItem.skip (mk e)

/-- The skip message of check 5 (line 144). -/
def outlierSkipMsg (colName e : String) : String :=
  "Could not analyze outliers for '" ++ colName ++ "': " ++ e

/-- The columns processed by check 5 (line 135): allow-listed, present,
and of numeric dtype. -/
def outlierProcessedCols (t : Table) : List String :=
  keyNumericCols.filter (fun c => t.hasCol c && isNumericDtype (t.colD c))

/-- Check 5 in full (lines 134-144): one item per processed column, the
failure of a column caught and reported for that column alone. -/
def outlierRun (t : Table) : List (String × CheckItem OutFinding) :=
  (outlierProcessedCols t).map (fun c =>
    (c, runExcept (outlierSkipMsg c) (outlierStep t.rowCount (t.colD c))))

lemma cellPred_eq (c : Cell) (L U : ℚ) :
    (cellBelow c (some L) || cellAbove c (some U))
      = match cellNum c with
        | some x => decide (x < L) || decide (U < x)
        | none => false := by
  cases c <;> rfl

lemma filter_outlier_length (cells : List Cell) (L U : ℚ) :
    (cells.filter (fun c => cellBelow c (some L) || cellAbove c (some U))).length
      = (numericValues cells).countP (fun x => decide (x < L) || decide (U < x)) := by
  induction cells with
  | nil => rfl
  | cons c rest ih =>
    cases c with
    | null =>
      simpa [numericValues, cellNum, cellBelow, cellAbove, List.filter_cons] using ih
    | num q =>
      by_cases h : (decide (q < L) || decide (U < q)) = true
      · simp only [numericValues, List.filterMap_cons, cellNum, List.filter_cons,
          cellBelow, cellAbove, h, List.countP_cons] at *
        simp [h, ih]
      · simp only [numericValues, List.filterMap_cons, cellNum, List.filter_cons,
          cellBelow, cellAbove, List.countP_cons] at *
        simp [h, ih]
    | str s =>
      simpa [numericValues, cellNum, cellBelow, cellAbove, List.filter_cons] using ih

/-- C2 (amended): every allow-listed, present, numeric-dtype column gets an
outlier item; on the successful path the fences are `Q1 - 1.5*IQR` and
`Q3 + 1.5*IQR`, the outliers are exactly the values strictly outside the
fences, the percentage is `count/rowCount*100`, and the samples — the first
five outlier values — are listed exactly when the count is greater than 0
and strictly less than 10. -/
theorem C2_outlier_detection_bounds_and_sampling :
    (∀ (t : Table) (c : String), c ∈ keyNumericCols → t.hasCol c = true →
      isNumericDtype (t.colD c) = true →
      (c, runExcept (outlierSkipMsg c) (outlierStep t.rowCount (t.colD c)))
        ∈ outlierRun t) ∧
    (∀ (rowCount : ℕ) (cells : List Cell) (q1v q3v : ℚ) (f : OutFinding),
      pandasQuantile (numericValues cells) (1/4) = some q1v →
      pandasQuantile (numericValues cells) (3/4) = some q3v →
      outlierStep rowCount cells = Except.ok f →
      f.lowerBound = some (q1v - 3/2 * (q3v - q1v)) ∧
      f.upperBound = some (q3v + 3/2 * (q3v - q1v)) ∧
      f.outlierCount = (numericValues cells).countP (fun x =>
        decide (x < q1v - 3/2 * (q3v - q1v)) || decide (q3v + 3/2 * (q3v - q1v) < x)) ∧
      f.pct = (f.outlierCount : ℚ) / (rowCount : ℚ) * 100 ∧
      (f.samplesListed = true ↔ 0 < f.outlierCount ∧ f.outlierCount < 10) ∧
      f.samples = ((cells.filter (fun cc =>
        cellBelow cc f.lowerBound || cellAbove cc f.upperBound)).filterMap cellNum).take 5) := by
  constructor
  · intro t c hc hhas hdty
    have hproc : c ∈ outlierProcessedCols t := by
      unfold outlierProcessedCols
      refine List.mem_filter.mpr ⟨hc, ?_⟩
      simp [hhas, hdty]
    exact List.mem_map_of_mem _ hproc
  · intro rowCount cells q1v q3v f hq1 hq3 hstep
    by_cases h0 : rowCount = 0
    · rw [outlierStep, if_pos h0] at hstep
      exact absurd hstep (by simp)
    · rw [outlierStep, if_neg h0] at hstep
      rw [hq1, hq3] at hstep
      injection hstep with hf
      subst hf
      refine ⟨rfl, rfl, ?_, rfl, ?_, rfl⟩
      · exact filter_outlier_length cells _ _
      · simp

set_option maxHeartbeats 2000000 in
/-- Counterexample to C2 as stated.  First conjunct: a column whose outlier
count is exactly 10 — inside the claimed range (0,10], since 10 is at most
10 — gets no samples listed (the code requires `len(outliers) < 10`).
Second conjunct: a column with 6 outliers has only the first five outlier
values listed (`head()`), not all the raw outlier values. -/
theorem C2_outlier_detection_counterexample :
    outlierStep 40 (List.replicate 30 (Cell.num 0) ++ List.replicate 10 (Cell.num 1000))
      = Except.ok
          { lowerBound := some (-375), upperBound := some 625, outlierCount := 10
          , pct := 25, samples := [1000, 1000, 1000, 1000, 1000], samplesListed := false } ∧
    outlierStep 36 (List.replicate 30 (Cell.num 0) ++ List.replicate 6 (Cell.num 1000))
      = Except.ok
          { lowerBound := some 0, upperBound := some 0, outlierCount := 6
          , pct := 50/3, samples := [1000, 1000, 1000, 1000, 1000], samplesListed := true } := by
  constructor
  · have e40 : List.replicate 30 (Cell.num 0) ++ List.replicate 10 (Cell.num 1000)
        = [Cell.num 0, Cell.num 0, Cell.num 0, Cell.num 0, Cell.num 0, Cell.num 0, Cell.num 0, Cell.num 0, Cell.num 0, Cell.num 0, Cell.num 0, Cell.num 0, Cell.num 0, Cell.num 0, Cell.num 0, Cell.num 0, Cell.num 0, Cell.num 0, Cell.num 0, Cell.num 0, Cell.num 0, Cell.num 0, Cell.num 0, Cell.num 0, Cell.num 0, Cell.num 0, Cell.num 0, Cell.num 0, Cell.num 0, Cell.num 0, Cell.num 1000, Cell.num 1000, Cell.num 1000, Cell.num 1000, Cell.num 1000, Cell.num 1000, Cell.num 1000, Cell.num 1000, Cell.num 1000, Cell.num 1000] := rfl
    have hxs : numericValues [Cell.num 0, Cell.num 0, Cell.num 0, Cell.num 0, Cell.num 0, Cell.num 0, Cell.num 0, Cell.num 0, Cell.num 0, Cell.num 0, Cell.num 0, Cell.num 0, Cell.num 0, Cell.num 0, Cell.num 0, Cell.num 0, Cell.num 0, Cell.num 0, Cell.num 0, Cell.num 0, Cell.num 0, Cell.num 0, Cell.num 0, Cell.num 0, Cell.num 0, Cell.num 0, Cell.num 0, Cell.num 0, Cell.num 0, Cell.num 0, Cell.num 1000, Cell.num 1000, Cell.num 1000, Cell.num 1000, Cell.num 1000, Cell.num 1000, Cell.num 1000, Cell.num 1000, Cell.num 1000, Cell.num 1000] = [0, 0, 0, 0, 0, 0, 0, 0, 0, 0, 0, 0, 0, 0, 0, 0, 0, 0, 0, 0, 0, 0, 0, 0, 0, 0, 0, 0, 0, 0, 1000, 1000, 1000, 1000, 1000, 1000, 1000, 1000, 1000, 1000] := rfl
    have hq1 : pandasQuantile [0, 0, 0, 0, 0, 0, 0, 0, 0, 0, 0, 0, 0, 0, 0, 0, 0, 0, 0, 0, 0, 0, 0, 0, 0, 0, 0, 0, 0, 0, 1000, 1000, 1000, 1000, 1000, 1000, 1000, 1000, 1000, 1000] (1/4) = some 0 := by
      have hf : ⌊(39:ℚ) * (1/4)⌋ = 9 := by
        rw [Int.floor_eq_iff]
        norm_num
      have h2 : (9 : ℤ).toNat = 9 := rfl
      norm_num [pandasQuantile, List.insertionSort, List.orderedInsert, hf, h2,
    List.getD, List.getElem?_cons_succ, List.getElem?_cons_zero]
    have hq3 : pandasQuantile [0, 0, 0, 0, 0, 0, 0, 0, 0, 0, 0, 0, 0, 0, 0, 0, 0, 0, 0, 0, 0, 0, 0, 0, 0, 0, 0, 0, 0, 0, 1000, 1000, 1000, 1000, 1000, 1000, 1000, 1000, 1000, 1000] (3/4) = some 250 := by
      have hf : ⌊(39:ℚ) * (3/4)⌋ = 29 := by
        rw [Int.floor_eq_iff]
        norm_num
      have h2 : (29 : ℤ).toNat = 29 := rfl
      norm_num [pandasQuantile, List.insertionSort, List.orderedInsert, hf, h2,
    List.getD, List.getElem?_cons_succ, List.getElem?_cons_zero]
    rw [e40, outlierStep, hxs, hq1, hq3]
    norm_num [cellBelow, cellAbove, cellNum, List.filter_cons, List.filterMap_cons,
      List.take_succ_cons, List.take_zero]
  · have e36 : List.replicate 30 (Cell.num 0) ++ List.replicate 6 (Cell.num 1000)
        = [Cell.num 0, Cell.num 0, Cell.num 0, Cell.num 0, Cell.num 0, Cell.num 0, Cell.num 0, Cell.num 0, Cell.num 0, Cell.num 0, Cell.num 0, Cell.num 0, Cell.num 0, Cell.num 0, Cell.num 0, Cell.num 0, Cell.num 0, Cell.num 0, Cell.num 0, Cell.num 0, Cell.num 0, Cell.num 0, Cell.num 0, Cell.num 0, Cell.num 0, Cell.num 0, Cell.num 0, Cell.num 0, Cell.num 0, Cell.num 0, Cell.num 1000, Cell.num 1000, Cell.num 1000, Cell.num 1000, Cell.num 1000, Cell.num 1000] := rfl
    have hxs : numericValues [Cell.num 0, Cell.num 0, Cell.num 0, Cell.num 0, Cell.num 0, Cell.num 0, Cell.num 0, Cell.num 0, Cell.num 0, Cell.num 0, Cell.num 0, Cell.num 0, Cell.num 0, Cell.num 0, Cell.num 0, Cell.num 0, Cell.num 0, Cell.num 0, Cell.num 0, Cell.num 0, Cell.num 0, Cell.num 0, Cell.num 0, Cell.num 0, Cell.num 0, Cell.num 0, Cell.num 0, Cell.num 0, Cell.num 0, Cell.num 0, Cell.num 1000, Cell.num 1000, Cell.num 1000, Cell.num 1000, Cell.num 1000, Cell.num 1000] = [0, 0, 0, 0, 0, 0, 0, 0, 0, 0, 0, 0, 0, 0, 0, 0, 0, 0, 0, 0, 0, 0, 0, 0, 0, 0, 0, 0, 0, 0, 1000, 1000, 1000, 1000, 1000, 1000] := rfl
    have hq1 : pandasQuantile [0, 0, 0, 0, 0, 0, 0, 0, 0, 0, 0, 0, 0, 0, 0, 0, 0, 0, 0, 0, 0, 0, 0, 0, 0, 0, 0, 0, 0, 0, 1000, 1000, 1000, 1000, 1000, 1000] (1/4) = some 0 := by
      have hf : ⌊(35:ℚ) * (1/4)⌋ = 8 := by
        rw [Int.floor_eq_iff]
        norm_num
      have h2 : (8 : ℤ).toNat = 8 := rfl
      norm_num [pandasQuantile, List.insertionSort, List.orderedInsert, hf, h2,
    List.getD, List.getElem?_cons_succ, List.getElem?_cons_zero]
    have hq3 : pandasQuantile [0, 0, 0, 0, 0, 0, 0, 0, 0, 0, 0, 0, 0, 0, 0, 0, 0, 0, 0, 0, 0, 0, 0, 0, 0, 0, 0, 0, 0, 0, 1000, 1000, 1000, 1000, 1000, 1000] (3/4) = some 0 := by
      have hf : ⌊(35:ℚ) * (3/4)⌋ = 26 := by
        rw [Int.floor_eq_iff]
        norm_num
      have h2 : (26 : ℤ).toNat = 26 := rfl
      norm_num [pandasQuantile, List.insertionSort, List.orderedInsert, hf, h2,
    List.getD, List.getElem?_cons_succ, List.getElem?_cons_zero]
    rw [e36, outlierStep, hxs, hq1, hq3]
    norm_num [cellBelow, cellAbove, cellNum, List.filter_cons, List.filterMap_cons,
      List.take_succ_cons, List.take_zero]

/-- Witness for the amended C2 at concrete inputs: a one-column table on the
gating conjunct, and the column `[0, 0, 0, 100]` (Q1 = 0, Q3 = 25) on the
per-column conjunct. -/
theorem C2_outlier_detection_bounds_and_sampling_witness :
    (("Party Size", runExcept (outlierSkipMsg "Party Size")
        (outlierStep 3 [Cell.num 1, Cell.num 2, Cell.num 3]))
      ∈ outlierRun (Table.mk 3 [("Party Size", [Cell.num 1, Cell.num 2, Cell.num 3])])) ∧
    ((⟨some (-(75 : ℚ)/2), some ((125 : ℚ)/2), 1, 25, [100], true⟩ : OutFinding).samplesListed
        = true ↔ 0 < (⟨some (-(75 : ℚ)/2), some ((125 : ℚ)/2), 1, 25, [100], true⟩
          : OutFinding).outlierCount ∧
        (⟨some (-(75 : ℚ)/2), some ((125 : ℚ)/2), 1, 25, [100], true⟩
          : OutFinding).outlierCount < 10) := by
  have hnv : numericValues [Cell.num 0, Cell.num 0, Cell.num 0, Cell.num 100]
      = [0, 0, 0, 100] := rfl
  have hq1 : pandasQuantile (numericValues
      [Cell.num 0, Cell.num 0, Cell.num 0, Cell.num 100]) (1/4) = some 0 := by
    have hf : ⌊(3:ℚ) * (1/4)⌋ = 0 := by
      rw [Int.floor_eq_iff]
      norm_num
    have h2 : (0 : ℤ).toNat = 0 := rfl
    rw [hnv]
    norm_num [pandasQuantile, List.insertionSort, List.orderedInsert, hf, h2,
      List.getD, List.getElem?_cons_succ, List.getElem?_cons_zero]
  have hq3 : pandasQuantile (numericValues
      [Cell.num 0, Cell.num 0, Cell.num 0, Cell.num 100]) (3/4) = some 25 := by
    have hf : ⌊(3:ℚ) * (3/4)⌋ = 2 := by
      rw [Int.floor_eq_iff]
      norm_num
    have h2 : (2 : ℤ).toNat = 2 := rfl
    rw [hnv]
    norm_num [pandasQuantile, List.insertionSort, List.orderedInsert, hf, h2,
      List.getD, List.getElem?_cons_succ, List.getElem?_cons_zero]
  have hstep : outlierStep 4 [Cell.num 0, Cell.num 0, Cell.num 0, Cell.num 100]
      = Except.ok ⟨some (-(75 : ℚ)/2), some ((125 : ℚ)/2), 1, 25, [100], true⟩ := by
    rw [outlierStep, hq1, hq3]
    norm_num [cellBelow, cellAbove, cellNum, List.filter_cons, List.filterMap_cons,
      List.take_succ_cons, List.take_zero, numericValues]
  exact ⟨C2_outlier_detection_bounds_and_sampling.1
      (Table.mk 3 [("Party Size", [Cell.num 1, Cell.num 2, Cell.num 3])]) "Party Size"
      (by decide) (by decide) (by decide),
    (C2_outlier_detection_bounds_and_sampling.2 4
      [Cell.num 0, Cell.num 0, Cell.num 0, Cell.num 100] 0 25
      ⟨some (-(75 : ℚ)/2), some ((125 : ℚ)/2), 1, 25, [100], true⟩
      hq1 hq3 hstep).2.2.2.2.1⟩


/-- Python `str.strip`: drops whitespace from both ends of a char list. -/
def stripChars (l : List Char) : List Char :=
  ((l.dropWhile Char.isWhitespace).reverse.dropWhile Char.isWhitespace).reverse

/-- Python `str.strip` on strings. -/
def pyStrip (s : String) : String := String.mk (stripChars s.data)

/-- The numeric value of one decimal digit, `none` otherwise. -/
def digitVal (c : Char) : Option ℕ :=
  if c.isDigit then some (c.toNat - 48) else none

/-- Parses a non-empty all-digit character list as a natural number. -/
def parseNat (cs : List Char) : Option ℕ :=
  if cs.isEmpty then none
  else cs.foldl (fun acc c =>
    match acc, digitVal c with
    | some n, some d => some (n * 10 + d)
    | _, _ => none) (some 0)

/-- Splits a character list at every occurrence of `sep` (the semantics of
`str.split` on a one-character separator). -/
def splitOnChar (sep : Char) : List Char → List (List Char)
  | [] => [[]]
  | c :: rest =>
    if c == sep then [] :: splitOnChar sep rest
    else
      match splitOnChar sep rest with
      | h :: t => (c :: h) :: t
      | [] => [[c]]

/-- Unsigned decimal literal: digits with an optional fractional part. -/
def parseUnsignedDec (cs : List Char) : Option ℚ :=
  match splitOnChar '.' cs with
  | [a] => (parseNat a).map (fun n => (n : ℚ))
  | [a, b] =>
    if a.isEmpty && b.isEmpty then none
    else
      let ipart : Option ℕ := if a.isEmpty then some 0 else parseNat a
      let fpart : Option ℚ :=
        if b.isEmpty then some 0
        else (parseNat b).map (fun f => (f : ℚ) / ((10 : ℚ) ^ b.length))
      match ipart, fpart with
      | some i, some f => some ((i : ℚ) + f)
      | _, _ => none
  | _ => none

/-- Plain decimal literal parser modelling Python `float(...)` and the
per-value parse of `pd.to_numeric` on the value shapes of this dataset:
optional surrounding whitespace, optional sign, digits with an optional
fractional part. -/
def parseDecimal (s : String) : Option ℚ :=
  match stripChars s.data with
  | '-' :: rest => (parseUnsignedDec rest).map (fun q => -q)
  | '+' :: rest => parseUnsignedDec rest
  | cs => parseUnsignedDec cs

/-- The test `'$' in str(df[col].iloc[0])` (line 237) applied to one cell:
only a text cell can contain a dollar sign, since `str(nan)` is "nan" and
the decimal rendering of a number has none. -/
def cellHasDollar : Cell → Bool
  | Cell.str s => strContainsSub s "$"
  | _ => false

/-- One value through the currency-cleaning pipeline (line 238)
`astype(str).str.replace($,).str.replace(,,).astype(float)`: a null renders
as "nan" and `float("nan")` is NaN; a numeric cell renders as its decimal
literal and parses back to itself; a text cell has dollar signs and commas
removed and must then parse as a decimal, otherwise the conversion raises
`ValueError`. -/
def cleanCell : Cell → Except String (Option ℚ)
  | Cell.null => Except.ok none
  | Cell.num q => Except.ok (some q)
  | Cell.str s =>
    let cleaned := String.mk
      ((s.data.filter (fun c => !(c == '$'))).filter (fun c => !(c == ',')))
    match parseDecimal cleaned with
    | some q => Except.ok (some q)
    | none => Except.error ("could not convert string to float: '" ++ cleaned ++ "'")

/-- One value through `pd.to_numeric(..., errors=coerce)` (line 240):
unparseable individual values become null. -/
def toNumericCoerce : Cell → Option ℚ
  | Cell.null => none
  | Cell.num q => some q
  | Cell.str s => parseDecimal s

/-- The coercion branch of check 8 (lines 235-242): an already-numeric
column is used as is; otherwise the first value decides between the
currency-cleaning pipeline (which can raise) and the generic coercion; an
empty column (object dtype under `read_csv`) raises `IndexError` at
`iloc[0]`.  The boolean records whether the currency path was used. -/
def numericBranch (cells : List Cell) : Except String (Bool × List (Option ℚ)) :=
  if isNumericDtype cells then Except.ok (false, cells.map cellNum)
  else
    match cells.head? with
    | none => Except.error "single positional indexer is out-of-bounds"
    | some c0 =>
      if cellHasDollar c0 then (cells.mapM cleanCell).map (fun s => (true, s))
      else Except.ok (false, cells.map toNumericCoerce)

/-- `Series.mean()`: NaN (`none`) on an empty series. -/
def seriesMean (xs : List ℚ) : Option ℚ :=
  if xs.length = 0 then none else some (xs.sum / (xs.length : ℚ))

/-- The per-column finding of check 8 (lines 244-265).  The standard
deviation display is not modelled (its value is irrational and no reported
decision depends on it); `negPct`/`zeroPct` are the percentages that are
printed only when the respective count is positive (hence with a positive
row count, so plain rational division is exact there). -/
structure NumFinding where
  count : ℕ
  mean : Option ℚ
  minV : Option ℚ
  q25 : Option ℚ
  median : Option ℚ
  q75 : Option ℚ
  maxV : Option ℚ
  usedCurrency : Bool
  negCount : ℕ
  negWarned : Bool
  negPct : ℚ
  zeroCount : ℕ
  zeroReported : Bool
  zeroPct : ℚ
deriving DecidableEq, Repr

/-- One column through check 8 (lines 231-268): coercion branch, descriptive
statistics, the negative-value warning for cost/price/amount/size names, and
the zero-value line which is printed only when the zero count is positive. -/
def numericStep (rowCount : ℕ) (colName : String) (cells : List Cell) :
    Except String NumFinding :=
  match numericBranch cells with
  | Except.error e => Except.error e
  | Except.ok (cur, series) =>
    let xs := series.filterMap id
    let negCount := xs.countP (fun x => decide (x < 0))
    let zeroCount := xs.countP (fun x => x == 0)
    let negApplies := nameMatches negCheckKeywords colName
    Except.ok
      { count := xs.length
      , mean := seriesMean xs
      , minV := pandasQuantile xs 0
      , q25 := pandasQuantile xs (1/4)
      , median := pandasQuantile xs (1/2)
      , q75 := pandasQuantile xs (3/4)
      , maxV := pandasQuantile xs 1
      , usedCurrency := cur
      , negCount := negCount
      , negWarned := negApplies && decide (0 < negCount)
      , negPct := (negCount : ℚ) / (rowCount : ℚ) * 100
      , zeroCount := zeroCount
      , zeroReported := decide (0 < zeroCount)
      , zeroPct := (zeroCount : ℚ) / (rowCount : ℚ) * 100 }

/-- The columns processed by check 8 (lines 231-232): every table column
whose name matches a numeric keyword. -/
def numericProcessedCols (t : Table) : List String :=
  (t.cols.map (fun p => p.1)).filter (fun n => nameMatches numericKeywords n)

/-- The skip message of check 8 (line 268). -/
def numericSkipMsg (colName e : String) : String :=
  "Could not analyze numeric field '" ++ colName ++ "': " ++ e

/-- Check 8 in full (lines 231-268): one item per processed column, a
column's failure caught and reported for that column alone. -/
def numericRun (t : Table) : List (String × CheckItem NumFinding) :=
  (numericProcessedCols t).map (fun c =>
    (c, runExcept (numericSkipMsg c) (numericStep t.rowCount c (t.colD c))))



/-- C6 (amended): for every column whose coercion succeeds, the
numeric-fields check computes the count of exact-zero values among the
coerced series, and reports it if and only if that count is positive. -/
theorem C6_zero_count_reported_iff_positive
    (rowCount : ℕ) (colName : String) (cells : List Cell)
    (cur : Bool) (series : List (Option ℚ))
    (hb : numericBranch cells = Except.ok (cur, series)) :
    (numericStep rowCount colName cells).map (fun f => f.zeroCount)
        = Except.ok ((series.filterMap id).countP (fun x => x == 0)) ∧
    (numericStep rowCount colName cells).map (fun f => f.zeroReported)
        = Except.ok (decide (0 < (series.filterMap id).countP (fun x => x == 0))) := by
  rw [numericStep, hb]
  exact ⟨rfl, rfl⟩

/-- Counterexample to C6 as stated: a numeric cost column with no zero
values produces a finding whose zero count is 0 and which does NOT report
the zero-value line (`if zero_count > 0` fails), though the claim says the
count is always reported, including when it is zero. -/
theorem C6_zero_count_counterexample :
    (numericStep 1 "Total Cost ($)" [Cell.num 5]).map
      (fun f => (f.zeroCount, f.zeroReported)) = Except.ok (0, false) := rfl

/-- Witness for the amended C6 at a column containing one exact zero. -/
theorem C6_zero_count_reported_iff_positive_witness :
    (numericStep 1 "Total Cost ($)" [Cell.num 0]).map (fun f => f.zeroCount)
        = Except.ok (([some (0 : ℚ)].filterMap id).countP (fun x => x == 0)) ∧
    (numericStep 1 "Total Cost ($)" [Cell.num 0]).map (fun f => f.zeroReported)
        = Except.ok (decide (0 < ([some (0 : ℚ)].filterMap id).countP (fun x => x == 0))) :=
  C6_zero_count_reported_iff_positive 1 "Total Cost ($)" [Cell.num 0] false
    [some 0] rfl

/-- C7 (amended): for a non-numeric column the branch is decided by the
column's FIRST value — `str(df[col].iloc[0])`, where a null renders as
"nan" — containing the dollar sign: if it does, every value goes through
the currency-cleaning pipeline; otherwise the generic coercion
`pd.to_numeric(errors=coerce)` runs, under which an unparseable individual
value becomes null. -/
theorem C7_currency_branch_on_first_value
    (cells : List Cell) (c0 : Cell) (rest : List Cell)
    (hc : cells = c0 :: rest)
    (hdty : isNumericDtype cells = false) :
    (cellHasDollar c0 = true →
      numericBranch cells = (cells.mapM cleanCell).map (fun s => (true, s))) ∧
    (cellHasDollar c0 = false →
      numericBranch cells = Except.ok (false, cells.map toNumericCoerce)) ∧
    (∀ s : String, toNumericCoerce (Cell.str s) = parseDecimal s) := by
  subst hc
  refine ⟨fun hdol => ?_, fun hdol => ?_, fun s => rfl⟩
  · rw [numericBranch, if_neg (by simp [hdty])]
    simp [hdol]
  · rw [numericBranch, if_neg (by simp [hdty])]
    simp [hdol]

/-- Counterexample to C7 as stated: in the column `[null, "$5"]` the first
NON-NULL value "$5" contains the currency symbol, so the claim prescribes
the currency-cleaning path; but the code inspects `str(iloc[0])` = "nan",
takes the generic coercion, and both values coerce to null — whereas the
currency pipeline would have produced `[null, 5]`. -/
theorem C7_currency_branch_counterexample :
    cellHasDollar (Cell.str "$5") = true ∧
    isNumericDtype [Cell.null, Cell.str "$5"] = false ∧
    numericBranch [Cell.null, Cell.str "$5"] = Except.ok (false, [none, none]) ∧
    List.mapM cleanCell [Cell.null, Cell.str "$5"] = Except.ok [none, some 5] :=
  ⟨rfl, rfl, rfl, rfl⟩

/-- Witness for the amended C7: the currency path on a column whose first
value holds a dollar sign, and the generic path on one whose first value
does not. -/
theorem C7_currency_branch_on_first_value_witness :
    (numericBranch [Cell.str "$5", Cell.null]
      = (List.mapM cleanCell [Cell.str "$5", Cell.null]).map (fun s => (true, s))) ∧
    (numericBranch [Cell.str "abc", Cell.num 2]
      = Except.ok (false, List.map toNumericCoerce [Cell.str "abc", Cell.num 2])) :=
  ⟨(C7_currency_branch_on_first_value [Cell.str "$5", Cell.null]
      (Cell.str "$5") [Cell.null] rfl rfl).1 rfl,
   (C7_currency_branch_on_first_value [Cell.str "abc", Cell.num 2]
      (Cell.str "abc") [Cell.num 2] rfl rfl).2.1 rfl⟩


/-- Python `str.lower().strip()` — the normalization of line 165. -/
def pyNorm (s : String) : String := pyStrip (pyLower s)

/-- The text value of a cell, `none` for nulls and numbers. -/
def cellStrOpt : Cell → Option String
  | Cell.str s => some s
  | _ => none

/-- pandas dtype inference for a loaded column: `object` exactly when some
value is text (all-numeric or all-null columns load as float64).  Object
columns of this dataset hold text and nulls. -/
def isObjectDtype (cells : List Cell) : Bool :=
  cells.any (fun c => match c with | Cell.str _ => true | _ => false)

/-- First-occurrence deduplication with an accumulator of already-seen
values. -/
def pdUniqueAux (seen : List String) : List String → List String
  | [] => []
  | x :: xs => if x ∈ seen then pdUniqueAux seen xs else x :: pdUniqueAux (x :: seen) xs

/-- pandas `Series.unique()` after `dropna().astype(str)` (line 164): the
distinct values in order of first appearance.  Also the cardinality
`len(set(...))` when only its length is used. -/
def pdUnique (l : List String) : List String := pdUniqueAux [] l

/-- The distinct raw (non-null, text) values of a column, in order of first
appearance — `df[col].dropna().astype(str).unique()` (line 164). -/
def rawValues (cells : List Cell) : List String :=
  pdUnique (cells.filterMap cellStrOpt)

/-- One step of the grouping loop of lines 170-176: append `v` to the group
keyed by `key`, creating the group at the end when the key is new (Python
dict insertion order). -/
def addToGroup : List (String × List String) → String → String → List (String × List String)
  | [], key, v => [(key, [v])]
  | (k, vs) :: rest, key, v =>
    if k == key then (k, vs ++ [v]) :: rest
    else (k, vs) :: addToGroup rest key v

/-- The grouping loop of lines 170-176: raw values grouped by their
normalized form, in insertion order. -/
def buildGroups (values : List String) : List (String × List String) :=
  values.foldl (fun gs v => addToGroup gs (pyNorm v) v) []

/-- The finding of check 6 for one qualifying column (lines 157-181). -/
structure CatFinding where
  uniqueCount : ℕ
  warned : Bool
  reportedGroups : List (String × List String)
deriving DecidableEq, Repr

/-- One qualifying column through check 6 (lines 159-181): the consistency
warning fires when normalization collapses distinct raw values
(`len(set(normalized_values)) < len(values)`), and then the groups with
more than one raw variant are reported. -/
def catStep (cells : List Cell) : CatFinding :=
  let values := rawValues cells
  let warned := decide ((pdUnique (values.map pyNorm)).length < values.length)
  { uniqueCount := values.length
  , warned := warned
  , reportedGroups :=
      if warned then (buildGroups values).filter (fun g => 1 < g.2.length) else [] }

/-- Check 6 in full (lines 152-181): object-dtype columns whose distinct
non-null value count is strictly between 1 and 20. -/
def catRun (t : Table) : List (String × CatFinding) :=
  (t.cols.filter (fun p => isObjectDtype p.2)).filterMap (fun p =>
    if 1 < (rawValues p.2).length ∧ (rawValues p.2).length < 20 then
      some (p.1, catStep p.2)
    else none)


lemma char_toNat_ofNat {n : ℕ} (h : n.isValidChar) : (Char.ofNat n).toNat = n := by
  rw [Char.ofNat, dif_pos h]
  rfl

lemma toLower_fix_of_not_upper (c : Char) (h : ¬(c.toNat ≥ 65 ∧ c.toNat ≤ 90)) :
    Char.toLower c = c := by
  simp only [Char.toLower]
  rw [if_neg h]

lemma toLower_idem (c : Char) : Char.toLower (Char.toLower c) = Char.toLower c := by
  by_cases h : c.toNat ≥ 65 ∧ c.toNat ≤ 90
  · have hd : (Char.toLower c).toNat = c.toNat + 32 := by
      simp only [Char.toLower]
      rw [if_pos h]
      exact char_toNat_ofNat (Or.inl (by omega))
    apply toLower_fix_of_not_upper
    rw [hd]
    omega
  · rw [toLower_fix_of_not_upper c h]
    exact toLower_fix_of_not_upper c h

lemma map_fix {α : Type} (f : α → α) : ∀ (l : List α), (∀ c ∈ l, f c = c) → l.map f = l := by
  intro l
  induction l with
  | nil => intro _; rfl
  | cons x xs ih =>
    intro h
    simp only [List.map_cons]
    rw [h x (List.mem_cons_self x xs), ih (fun c hc => h c (List.mem_cons_of_mem x hc))]

lemma dropWhile_headOk {α : Type} (p : α → Bool) (l : List α) :
    ∀ x, (l.dropWhile p).head? = some x → p x = false := by
  induction l with
  | nil => intro x h; simp [List.dropWhile] at h
  | cons c t ih =>
    by_cases h : p c
    · intro x hx
      rw [List.dropWhile_cons, if_pos h] at hx
      exact ih x hx
    · intro x hx
      rw [List.dropWhile_cons, if_neg h] at hx
      simp only [List.head?_cons, Option.some.injEq] at hx
      rw [← hx]
      exact Bool.of_not_eq_true h

lemma dropWhile_eq_self_of_headOk {α : Type} (p : α → Bool) (l : List α)
    (h : ∀ x, l.head? = some x → p x = false) : l.dropWhile p = l := by
  cases l with
  | nil => rfl
  | cons c t =>
    rw [List.dropWhile_cons, if_neg]
    rw [h c rfl]
    simp

lemma headOk_of_prefix {α : Type} (p : α → Bool) {a b : List α} (hpre : b <+: a)
    (h : ∀ x, a.head? = some x → p x = false) : ∀ x, b.head? = some x → p x = false := by
  intro x hx
  rcases hpre with ⟨t, rfl⟩
  cases b with
  | nil => simp at hx
  | cons c u =>
    simp only [List.head?_cons, Option.some.injEq] at hx
    subst hx
    exact h _ rfl

lemma dropWhile_idem {α : Type} (p : α → Bool) (l : List α) :
    (l.dropWhile p).dropWhile p = l.dropWhile p :=
  dropWhile_eq_self_of_headOk p _ (dropWhile_headOk p l)

lemma stripChars_prefix_dropWhile (l : List Char) :
    stripChars l <+: l.dropWhile Char.isWhitespace := by
  unfold stripChars
  have hsuf : ((l.dropWhile Char.isWhitespace).reverse.dropWhile Char.isWhitespace)
      <:+ (l.dropWhile Char.isWhitespace).reverse := List.dropWhile_suffix _
  have := List.reverse_prefix.mpr hsuf
  simpa using this

lemma stripChars_idem (l : List Char) : stripChars (stripChars l) = stripChars l := by
  have h1 : (stripChars l).dropWhile Char.isWhitespace = stripChars l := by
    apply dropWhile_eq_self_of_headOk
    apply headOk_of_prefix Char.isWhitespace (stripChars_prefix_dropWhile l)
    exact dropWhile_headOk Char.isWhitespace l
  show ((((stripChars l).dropWhile Char.isWhitespace).reverse.dropWhile
      Char.isWhitespace)).reverse = stripChars l
  rw [h1]
  have h2 : (stripChars l).reverse =
      ((l.dropWhile Char.isWhitespace).reverse.dropWhile Char.isWhitespace) := by
    unfold stripChars
    rw [List.reverse_reverse]
  rw [h2, dropWhile_idem, ← h2, List.reverse_reverse]

lemma mem_stripChars {c : Char} {l : List Char} (h : c ∈ stripChars l) : c ∈ l := by
  unfold stripChars at h
  rw [List.mem_reverse] at h
  have h2 := (List.dropWhile_suffix (l := (l.dropWhile Char.isWhitespace).reverse)
    Char.isWhitespace).subset h
  rw [List.mem_reverse] at h2
  exact (List.dropWhile_suffix Char.isWhitespace).subset h2

lemma pyNorm_idem (s : String) : pyNorm (pyNorm s) = pyNorm s := by
  show pyStrip (pyLower (pyStrip (pyLower s))) = pyStrip (pyLower s)
  unfold pyLower pyStrip
  have hmk : ∀ l : List Char, (String.mk l).data = l := fun _ => rfl
  rw [hmk, hmk]
  have hfix : (stripChars (s.data.map Char.toLower)).map Char.toLower
      = stripChars (s.data.map Char.toLower) := by
    apply map_fix
    intro c hc
    rcases List.mem_map.mp (mem_stripChars hc) with ⟨x, _, rfl⟩
    exact toLower_idem x
  rw [hfix, stripChars_idem]


lemma mem_pdUniqueAux (x : String) :
    ∀ (l seen : List String), x ∈ pdUniqueAux seen l ↔ x ∈ l ∧ x ∉ seen := by
  intro l
  induction l with
  | nil => intro seen; simp [pdUniqueAux]
  | cons y ys ih =>
    intro seen
    by_cases hy : y ∈ seen
    · rw [pdUniqueAux, if_pos hy, ih seen]
      simp only [List.mem_cons]
      constructor
      · rintro ⟨hmem, hns⟩
        exact ⟨Or.inr hmem, hns⟩
      · rintro ⟨hmem | hmem, hns⟩
        · exact absurd (hmem ▸ hy) hns
        · exact ⟨hmem, hns⟩
    · rw [pdUniqueAux, if_neg hy]
      simp only [List.mem_cons, ih (y :: seen), List.mem_cons]
      constructor
      · rintro (rfl | ⟨hmem, hns⟩)
        · exact ⟨Or.inl rfl, hy⟩
        · exact ⟨Or.inr hmem, fun hc => hns (Or.inr hc)⟩
      · rintro ⟨hmem | hmem, hns⟩
        · exact Or.inl hmem
        · by_cases hxy : x = y
          · exact Or.inl hxy
          · exact Or.inr ⟨hmem, fun hc => hns (hc.resolve_left hxy)⟩

lemma mem_pdUnique (x : String) (l : List String) : x ∈ pdUnique l ↔ x ∈ l := by
  rw [pdUnique, mem_pdUniqueAux]
  simp

lemma nodup_pdUniqueAux : ∀ (l seen : List String), (pdUniqueAux seen l).Nodup := by
  intro l
  induction l with
  | nil => intro seen; exact List.nodup_nil
  | cons y ys ih =>
    intro seen
    by_cases hy : y ∈ seen
    · rw [pdUniqueAux, if_pos hy]
      exact ih seen
    · rw [pdUniqueAux, if_neg hy]
      refine List.Nodup.cons ?_ (ih (y :: seen))
      intro hc
      have := (mem_pdUniqueAux y ys (y :: seen)).mp hc
      exact this.2 (List.mem_cons_self y seen)

lemma nodup_pdUnique (l : List String) : (pdUnique l).Nodup := nodup_pdUniqueAux l []

lemma pdUniqueAux_eq_self : ∀ (l seen : List String), l.Nodup →
    (∀ x ∈ l, x ∉ seen) → pdUniqueAux seen l = l := by
  intro l
  induction l with
  | nil => intro seen _ _; rfl
  | cons y ys ih =>
    intro seen hnd hdisj
    rw [pdUniqueAux, if_neg (hdisj y (List.mem_cons_self y ys))]
    congr 1
    apply ih (y :: seen) (List.Nodup.of_cons hnd)
    intro x hx
    intro hc
    rcases List.mem_cons.mp hc with rfl | hc2
    · exact (List.nodup_cons.mp hnd).1 hx
    · exact hdisj x (List.mem_cons_of_mem y hx) hc2

lemma pdUnique_eq_self_of_nodup {l : List String} (h : l.Nodup) : pdUnique l = l :=
  pdUniqueAux_eq_self l [] h (fun x _ hc => (List.not_mem_nil x) hc)

lemma pdUniqueAux_append_singleton (x : String) :
    ∀ (l seen : List String), pdUniqueAux seen (l ++ [x]) =
      if x ∈ seen ∨ x ∈ l then pdUniqueAux seen l else pdUniqueAux seen l ++ [x] := by
  intro l
  induction l with
  | nil =>
    intro seen
    have step : pdUniqueAux seen ([] ++ [x])
        = if x ∈ seen then pdUniqueAux seen [] else x :: pdUniqueAux (x :: seen) [] := rfl
    rw [step]
    by_cases hx : x ∈ seen
    · rw [if_pos hx, if_pos (Or.inl hx)]
    · rw [if_neg hx, if_neg (by simp [hx])]
      rfl
  | cons y ys ih =>
    intro seen
    have step : pdUniqueAux seen ((y :: ys) ++ [x])
        = if y ∈ seen then pdUniqueAux seen (ys ++ [x])
          else y :: pdUniqueAux (y :: seen) (ys ++ [x]) := rfl
    have stepR : pdUniqueAux seen (y :: ys)
        = if y ∈ seen then pdUniqueAux seen ys
          else y :: pdUniqueAux (y :: seen) ys := rfl
    rw [step, stepR]
    by_cases hy : y ∈ seen
    · rw [if_pos hy, if_pos hy, ih seen]
      have hcond : (x ∈ seen ∨ x ∈ y :: ys) ↔ (x ∈ seen ∨ x ∈ ys) := by
        simp only [List.mem_cons]
        constructor
        · rintro (hs | rfl | hm)
          · exact Or.inl hs
          · exact Or.inl hy
          · exact Or.inr hm
        · rintro (hs | hm)
          · exact Or.inl hs
          · exact Or.inr (Or.inr hm)
      by_cases hc : x ∈ seen ∨ x ∈ ys
      · rw [if_pos hc, if_pos (hcond.mpr hc)]
      · rw [if_neg hc, if_neg (fun hk => hc (hcond.mp hk))]
    · rw [if_neg hy, if_neg hy, ih (y :: seen)]
      have hcond : (x ∈ seen ∨ x ∈ y :: ys) ↔ (x ∈ y :: seen ∨ x ∈ ys) := by
        simp only [List.mem_cons]
        constructor
        · rintro (hs | rfl | hm)
          · exact Or.inl (Or.inr hs)
          · exact Or.inl (Or.inl rfl)
          · exact Or.inr hm
        · rintro ((rfl | hs) | hm)
          · exact Or.inr (Or.inl rfl)
          · exact Or.inl hs
          · exact Or.inr (Or.inr hm)
      by_cases hc : x ∈ y :: seen ∨ x ∈ ys
      · rw [if_pos hc, if_pos (hcond.mpr hc)]
      · rw [if_neg hc, if_neg (fun hk => hc (hcond.mp hk))]
        rfl

lemma pdUnique_append_singleton (l : List String) (x : String) :
    pdUnique (l ++ [x]) = if x ∈ l then pdUnique l else pdUnique l ++ [x] := by
  rw [pdUnique, pdUnique, pdUniqueAux_append_singleton]
  simp


lemma addToGroup_map (keys : List String) (F : String → List String) (key v : String)
    (hnd : keys.Nodup) :
    addToGroup (keys.map (fun k => (k, F k))) key v =
      if key ∈ keys then keys.map (fun k => (k, if k = key then F k ++ [v] else F k))
      else keys.map (fun k => (k, F k)) ++ [(key, [v])] := by
  induction keys with
  | nil => rfl
  | cons k ks ih =>
    simp only [List.map_cons]
    by_cases hk : k = key
    · subst hk
      rw [addToGroup, if_pos (by simp)]
      rw [if_pos (List.mem_cons_self k ks)]
      simp only [List.map_cons, if_pos rfl]
      congr 1
      apply List.map_congr_left
      intro k2 hk2
      have : k2 ≠ k := fun hc => (List.nodup_cons.mp hnd).1 (hc ▸ hk2)
      rw [if_neg this]
    · rw [addToGroup, if_neg (by simp [hk])]
      rw [ih (List.Nodup.of_cons hnd)]
      have hmemiff : key ∈ k :: ks ↔ key ∈ ks := by
        simp only [List.mem_cons]
        constructor
        · rintro (rfl | hm)
          · exact absurd rfl hk
          · exact hm
        · exact Or.inr
      by_cases hmem : key ∈ ks
      · rw [if_pos hmem, if_pos (hmemiff.mpr hmem)]
        rw [if_neg hk]
      · rw [if_neg hmem, if_neg (fun hc => hmem (hmemiff.mp hc))]
        simp only [List.map_cons, List.cons_append]

lemma buildGroups_eq (l : List String) :
    buildGroups l = (pdUnique (l.map pyNorm)).map
      (fun k => (k, l.filter (fun v => pyNorm v == k))) := by
  induction l using List.reverseRecOn with
  | nil => rfl
  | append_singleton l v ih =>
    have hstep : buildGroups (l ++ [v]) = addToGroup (buildGroups l) (pyNorm v) v := by
      rw [buildGroups, buildGroups, List.foldl_append, List.foldl_cons, List.foldl_nil]
    rw [hstep, ih, addToGroup_map _ _ _ _ (nodup_pdUnique _)]
    simp only [List.map_append, List.map_cons, List.map_nil]
    rw [pdUnique_append_singleton]
    by_cases hmem : pyNorm v ∈ pdUnique (l.map pyNorm)
    · rw [if_pos hmem, if_pos ((mem_pdUnique _ _).mp hmem)]
      apply List.map_congr_left
      intro k hk
      rw [List.filter_append]
      by_cases hkv : k = pyNorm v
      · subst hkv
        rw [if_pos rfl]
        simp
      · rw [if_neg hkv]
        have : (pyNorm v == k) = false := by
          simp only [beq_eq_false_iff_ne, ne_eq]
          exact fun hc => hkv hc.symm
        simp [List.filter_cons, this]
    · rw [if_neg hmem, if_neg (fun hc => hmem ((mem_pdUnique _ _).mpr hc)), List.map_append]
      have hnotin : pyNorm v ∉ l.map pyNorm := fun hc => hmem ((mem_pdUnique _ _).mpr hc)
      congr 1
      · apply List.map_congr_left
        intro k hk
        have hkv : (pyNorm v == k) = false := by
          simp only [beq_eq_false_iff_ne, ne_eq]
          intro hc
          exact hnotin (hc ▸ (mem_pdUnique _ _).mp hk)
        rw [List.filter_append]
        simp [List.filter_cons, hkv]
      · have hfilt : l.filter (fun w => pyNorm w == pyNorm v) = [] := by
          rw [List.filter_eq_nil_iff]
          intro a ha
          simp only [beq_iff_eq]
          intro hc
          exact hnotin (hc ▸ List.mem_map_of_mem pyNorm ha)
        simp only [List.map_cons, List.map_nil]
        rw [List.filter_append, hfilt]
        simp [List.filter_cons]

lemma mem_buildGroups_iff (l : List String) (nv : String) (vs : List String) :
    (nv, vs) ∈ buildGroups l ↔
      nv ∈ l.map pyNorm ∧ vs = l.filter (fun v => pyNorm v == nv) := by
  rw [buildGroups_eq]
  constructor
  · intro h
    rcases List.mem_map.mp h with ⟨k, hk, hpair⟩
    have h1 : k = nv := congrArg Prod.fst hpair
    have h2 : l.filter (fun v => pyNorm v == k) = vs := congrArg Prod.snd hpair
    subst h1
    exact ⟨(mem_pdUnique _ _).mp hk, h2.symm⟩
  · rintro ⟨hmem, rfl⟩
    exact List.mem_map.mpr ⟨nv, (mem_pdUnique _ _).mpr hmem, rfl⟩


/-- C4: the categorical-consistency warning fires exactly when lower-casing
and trimming collapses distinct raw values; the reported groups are exactly
the normalized classes with more than one raw variant; normalization is
idempotent, and a column whose distinct values are already normalized gets
no warning and no groups; every qualifying column (text dtype, distinct
count strictly between 1 and 20) is processed. -/
theorem C4_categorical_consistency :
    (∀ s : String, pyNorm (pyNorm s) = pyNorm s) ∧
    (∀ cells : List Cell,
      ((catStep cells).warned = true ↔
        (pdUnique ((rawValues cells).map pyNorm)).length < (rawValues cells).length)) ∧
    (∀ (cells : List Cell) (nv : String) (vs : List String),
      ((nv, vs) ∈ (catStep cells).reportedGroups ↔
        (catStep cells).warned = true ∧ nv ∈ (rawValues cells).map pyNorm ∧
        vs = (rawValues cells).filter (fun v => pyNorm v == nv) ∧ 1 < vs.length)) ∧
    (∀ cells : List Cell, (∀ v ∈ rawValues cells, pyNorm v = v) →
      (catStep cells).warned = false ∧ (catStep cells).reportedGroups = []) ∧
    (∀ (t : Table) (p : String × List Cell), p ∈ t.cols → isObjectDtype p.2 = true →
      1 < (rawValues p.2).length → (rawValues p.2).length < 20 →
      (p.1, catStep p.2) ∈ catRun t) := by
  have hwarn : ∀ cells : List Cell,
      ((catStep cells).warned = true ↔
        (pdUnique ((rawValues cells).map pyNorm)).length < (rawValues cells).length) := by
    intro cells
    simp [catStep]
  refine ⟨pyNorm_idem, hwarn, ?_, ?_, ?_⟩
  · intro cells nv vs
    show ((nv, vs) ∈ (if _ then _ else []) ↔ _)
    by_cases hw : (catStep cells).warned = true
    · have hw2 : decide ((pdUnique ((rawValues cells).map pyNorm)).length
          < (rawValues cells).length) = true := hw
      rw [if_pos hw2]
      rw [List.mem_filter, mem_buildGroups_iff]
      constructor
      · rintro ⟨⟨hmem, rfl⟩, hlen⟩
        exact ⟨hw, hmem, rfl, by simpa using hlen⟩
      · rintro ⟨_, hmem, rfl, hlen⟩
        exact ⟨⟨hmem, rfl⟩, by simpa using hlen⟩
    · have hw2 : decide ((pdUnique ((rawValues cells).map pyNorm)).length
          < (rawValues cells).length) = false := by
        rw [Bool.eq_false_iff]
        intro hc
        exact hw hc
      rw [if_neg (by simp [hw2])]
      simp only [List.not_mem_nil, false_iff]
      intro hc
      exact hw hc.1
  · intro cells hfix
    have hmap : (rawValues cells).map pyNorm = rawValues cells := map_fix pyNorm _ hfix
    have hnodup : (rawValues cells).Nodup := nodup_pdUnique _
    have hself : pdUnique (rawValues cells) = rawValues cells :=
      pdUnique_eq_self_of_nodup hnodup
    have hwfalse : (catStep cells).warned = false := by
      rw [Bool.eq_false_iff]
      intro hc
      have := (hwarn cells).mp hc
      rw [hmap, hself] at this
      omega
    refine ⟨hwfalse, ?_⟩
    show (if _ then _ else []) = []
    rw [if_neg]
    intro hc
    rw [Bool.eq_false_iff] at hwfalse
    exact hwfalse (by simpa [catStep] using hc)
  · intro t p hp hobj h1 h20
    unfold catRun
    refine List.mem_filterMap.mpr ⟨p, List.mem_filter.mpr ⟨hp, hobj⟩, ?_⟩
    rw [if_pos ⟨h1, h20⟩]

/-- Witness for C4 at concrete inputs: an already-normalized column gets no
warning, and a qualifying mixed-case column is processed by the check. -/
theorem C4_categorical_consistency_witness :
    ((catStep [Cell.str "a", Cell.str "b", Cell.null]).warned = false ∧
      (catStep [Cell.str "a", Cell.str "b", Cell.null]).reportedGroups = []) ∧
    ("Status", catStep [Cell.str "a", Cell.str "A", Cell.str "b"]) ∈
      catRun (Table.mk 3 [("Status", [Cell.str "a", Cell.str "A", Cell.str "b"])]) :=
  ⟨C4_categorical_consistency.2.2.2.1 [Cell.str "a", Cell.str "b", Cell.null] (by decide),
   C4_categorical_consistency.2.2.2.2
     (Table.mk 3 [("Status", [Cell.str "a", Cell.str "A", Cell.str "b"])])
     ("Status", [Cell.str "a", Cell.str "A", Cell.str "b"])
     (by decide) (by decide) (by decide) (by decide)⟩


/-- Elementwise pandas Series addition: `NaN` propagates. -/
def optAdd : Option ℚ → Option ℚ → Option ℚ
  | some a, some b => some (a + b)
  | _, _ => none

/-- Elementwise pandas Series subtraction: `NaN` propagates. -/
def optSub : Option ℚ → Option ℚ → Option ℚ
  | some a, some b => some (a - b)
  | _, _ => none

/-- Elementwise `abs`: `NaN` propagates. -/
def optAbs : Option ℚ → Option ℚ
  | some a => some |a|
  | none => none

/-- The output of the total-cost rule of check 9 (lines 285-297). -/
structure CostReport where
  calcTotal : List (Option ℚ)
  diff : List (Option ℚ)
  flagged : List ℚ
  report : Option (ℕ × ℚ)
deriving DecidableEq, Repr

/-- The total-cost arithmetic rule (lines 285-297): the calculated total is
`reservation + packages + addOns`, minus the promo discount when that
column exists; the cost difference is `abs(total - calculated)`; the rows
with difference strictly above 0.01 are the inconsistent ones, and when any
exist the check reports their count and the mean of their differences. -/
def costCheck (total res pkg addOns : List (Option ℚ))
    (promo : Option (List (Option ℚ))) : CostReport :=
  let base := List.zipWith optAdd (List.zipWith optAdd res pkg) addOns
  let calcT := match promo with
    | some pr => List.zipWith optSub base pr
    | none => base
  let diff := List.zipWith (fun t c => optAbs (optSub t c)) total calcT
  let flagged := diff.filterMap (fun d =>
    match d with
    | some x => if (1 : ℚ)/100 < x then some x else none
    | none => none)
  { calcTotal := calcT
  , diff := diff
  , flagged := flagged
  , report :=
      if 0 < flagged.length then some (flagged.length, flagged.sum / (flagged.length : ℚ))
      else none }

lemma flagged_eq_filter (diff : List (Option ℚ)) :
    (diff.filterMap (fun d =>
      match d with
      | some x => if (1 : ℚ)/100 < x then some x else none
      | none => none))
    = (diff.filterMap id).filter (fun x => decide ((1 : ℚ)/100 < x)) := by
  induction diff with
  | nil => rfl
  | cons d rest ih =>
    cases d with
    | none => simpa [List.filterMap_cons] using ih
    | some x =>
      by_cases hx : (1 : ℚ)/100 < x
      · simp only [List.filterMap_cons, if_pos hx, List.filter_cons,
          decide_eq_true_eq, id]
        exact congrArg (x :: ·) ih
      · simp only [List.filterMap_cons, if_neg hx, List.filter_cons,
          decide_eq_true_eq, id]
        exact ih

lemma costCheck_calcTotal_promo (total res pkg addOns pr : List (Option ℚ)) :
    (costCheck total res pkg addOns (some pr)).calcTotal
      = List.zipWith optSub
          (List.zipWith optAdd (List.zipWith optAdd res pkg) addOns) pr := rfl

lemma costCheck_calcTotal_none (total res pkg addOns : List (Option ℚ)) :
    (costCheck total res pkg addOns none).calcTotal
      = List.zipWith optAdd (List.zipWith optAdd res pkg) addOns := rfl

lemma costCheck_diff (total res pkg addOns : List (Option ℚ))
    (promo : Option (List (Option ℚ))) :
    (costCheck total res pkg addOns promo).diff
      = List.zipWith (fun t c => optAbs (optSub t c)) total
          (costCheck total res pkg addOns promo).calcTotal := by
  cases promo <;> rfl

lemma costCheck_flagged (total res pkg addOns : List (Option ℚ))
    (promo : Option (List (Option ℚ))) :
    (costCheck total res pkg addOns promo).flagged
      = (costCheck total res pkg addOns promo).diff.filterMap (fun d =>
          match d with
          | some x => if (1 : ℚ)/100 < x then some x else none
          | none => none) := by
  cases promo <;> rfl

lemma costCheck_report (total res pkg addOns : List (Option ℚ))
    (promo : Option (List (Option ℚ))) :
    (costCheck total res pkg addOns promo).report
      = (if 0 < (costCheck total res pkg addOns promo).flagged.length
         then some ((costCheck total res pkg addOns promo).flagged.length,
           (costCheck total res pkg addOns promo).flagged.sum
             / ((costCheck total res pkg addOns promo).flagged.length : ℚ))
         else none) := by
  cases promo <;> rfl

/-- C1: rowwise, the calculated total and the cost difference follow the
arithmetic rule (with and without a promo column); the flagged rows are
exactly those whose defined cost difference exceeds 0.01; the check reports
the flagged count together with the mean discrepancy among the flagged rows
exactly when some row is flagged; and on the concrete example row
(100, 20, 5, promo 10) a stated total of 115 is not flagged while a stated
total of 120 is flagged with discrepancy 5.00, reported count 1, mean 5. -/
theorem C1_total_cost_consistency :
    (∀ (total res pkg addOns pr : List (Option ℚ)) (i : ℕ)
      (a b c d : Option ℚ),
      res[i]? = some a → pkg[i]? = some b → addOns[i]? = some c → pr[i]? = some d →
      (costCheck total res pkg addOns (some pr)).calcTotal[i]?
        = some (optSub (optAdd (optAdd a b) c) d)) ∧
    (∀ (total res pkg addOns : List (Option ℚ)) (i : ℕ) (a b c : Option ℚ),
      res[i]? = some a → pkg[i]? = some b → addOns[i]? = some c →
      (costCheck total res pkg addOns none).calcTotal[i]?
        = some (optAdd (optAdd a b) c)) ∧
    (∀ (total res pkg addOns : List (Option ℚ)) (promo : Option (List (Option ℚ)))
      (i : ℕ) (tv cv : Option ℚ),
      total[i]? = some tv →
      (costCheck total res pkg addOns promo).calcTotal[i]? = some cv →
      (costCheck total res pkg addOns promo).diff[i]? = some (optAbs (optSub tv cv))) ∧
    (∀ (total res pkg addOns : List (Option ℚ)) (promo : Option (List (Option ℚ))),
      (costCheck total res pkg addOns promo).flagged
        = ((costCheck total res pkg addOns promo).diff.filterMap id).filter
            (fun x => decide ((1 : ℚ)/100 < x)) ∧
      (costCheck total res pkg addOns promo).report
        = (if 0 < (costCheck total res pkg addOns promo).flagged.length
           then some ((costCheck total res pkg addOns promo).flagged.length,
             (costCheck total res pkg addOns promo).flagged.sum
               / ((costCheck total res pkg addOns promo).flagged.length : ℚ))
           else none)) ∧
    costCheck [some 115] [some 100] [some 20] [some 5] (some [some 10])
      = ⟨[some 115], [some 0], [], none⟩ ∧
    costCheck [some 120] [some 100] [some 20] [some 5] (some [some 10])
      = ⟨[some 115], [some 5], [5], some (1, 5)⟩ := by
  refine ⟨?_, ?_, ?_, ?_, ?_, ?_⟩
  · intro total res pkg addOns pr i a b c d ha hb hc hd
    rw [costCheck_calcTotal_promo, List.getElem?_zipWith, List.getElem?_zipWith,
      List.getElem?_zipWith, ha, hb, hc, hd]
  · intro total res pkg addOns i a b c ha hb hc
    rw [costCheck_calcTotal_none, List.getElem?_zipWith, List.getElem?_zipWith,
      ha, hb, hc]
  · intro total res pkg addOns promo i tv cv ht hcalc
    rw [costCheck_diff, List.getElem?_zipWith, ht, hcalc]
  · intro total res pkg addOns promo
    rw [costCheck_flagged, costCheck_report]
    exact ⟨flagged_eq_filter _, rfl⟩
  · simp only [costCheck]
    norm_num [optAdd, optSub, optAbs, List.zipWith, List.filterMap]
  · simp only [costCheck]
    norm_num [optAdd, optSub, optAbs, List.zipWith, List.filterMap]

/-- Witness for C1: the rowwise conclusions instantiated on the concrete
example row. -/
theorem C1_total_cost_consistency_witness :
    (costCheck [some 115] [some 100] [some 20] [some 5] (some [some 10])).calcTotal[0]?
      = some (optSub (optAdd (optAdd (some 100) (some 20)) (some 5)) (some 10)) ∧
    (costCheck [some 115] [some 100] [some 20] [some 5] (some [some 10])).diff[0]?
      = some (optAbs (optSub (some 115) (some 115))) :=
  ⟨C1_total_cost_consistency.1 [some 115] [some 100] [some 20] [some 5] [some 10] 0
      (some 100) (some 20) (some 5) (some 10) rfl rfl rfl rfl,
    C1_total_cost_consistency.2.2.1 [some 115] [some 100] [some 20] [some 5]
      (some [some 10]) 0 (some 115) (some (115 : ℚ)) rfl
      (by
        have h := C1_total_cost_consistency.1 [some 115] [some 100] [some 20] [some 5]
          [some 10] 0 (some 100) (some 20) (some 5) (some 10) rfl rfl rfl rfl
        rw [h]
        norm_num [optAdd, optSub])⟩


/-- A parsed calendar date (a pandas Timestamp at day granularity). -/
structure PDate where
  year : ℕ
  month : ℕ
  day : ℕ
deriving DecidableEq, Repr

/-- Lexicographic strict order on dates (`Timestamp` comparison). -/
def PDate.lt (a b : PDate) : Bool :=
  decide (a.year < b.year) ||
  (a.year == b.year && (decide (a.month < b.month) ||
    (a.month == b.month && decide (a.day < b.day))))

/-- `pd.to_datetime(..., errors=coerce)` modelled on ISO `YYYY-MM-DD` text
cells: nulls and unparseable values coerce to `NaT` (`none`). -/
def parseDate (c : Cell) : Option PDate :=
  match c with
  | Cell.str s =>
    match splitOnChar '-' s.data with
    | [y, m, d] =>
      match parseNat y, parseNat m, parseNat d with
      | some yn, some mn, some dn =>
        if 1 ≤ mn && mn ≤ 12 && 1 ≤ dn && dn ≤ 31 then some ⟨yn, mn, dn⟩ else none
      | _, _, _ => none
    | _ => none
  | _ => none

/-- `Series.min()` over parsed dates. -/
def pdateMin (l : List PDate) : Option PDate :=
  l.foldl (fun acc d =>
    match acc with
    | none => some d
    | some m => if PDate.lt d m then some d else some m) none

/-- `Series.max()` over parsed dates. -/
def pdateMax (l : List PDate) : Option PDate :=
  l.foldl (fun acc d =>
    match acc with
    | none => some d
    | some m => if PDate.lt m d then some d else some m) none

/-- The per-column finding of check 7 (lines 203-220).  `futurePct` is the
percentage printed only when the future count is positive (hence with a
positive row count, where plain rational division is exact). -/
structure DateFinding where
  minDate : Option PDate
  maxDate : Option PDate
  futureCount : ℕ
  futurePct : ℚ
  futureWarned : Bool
  veryOldCount : ℕ
  veryOldWarned : Bool
deriving DecidableEq, Repr

/-- One column through check 7 (lines 189-223): parse with coercion; when
every value parses to null, print the could-not-convert skip naming the
column and move on; otherwise report min/max and the future / pre-2000
warnings.  Every operation of the embedded step is total, so the
except-branch of line 222 is never taken; the all-null skip is the reported
failure path. -/
def dateStep (now : PDate) (rowCount : ℕ) (colName : String) (cells : List Cell) :
    CheckItem DateFinding :=
  let vals := (cells.map parseDate).filterMap id
  if vals.isEmpty then
    CheckItem.skip ("'" ++ colName ++ "' could not be converted to dates - invalid format")
  else
    let futureCount := vals.countP (fun d => PDate.lt now d)
    let veryOldCount := vals.countP (fun d => decide (d.year < 2000))
    CheckItem.analyzed
      { minDate := pdateMin vals
      , maxDate := pdateMax vals
      , futureCount := futureCount
      , futurePct := (futureCount : ℚ) / (rowCount : ℚ) * 100
      , futureWarned := decide (0 < futureCount)
      , veryOldCount := veryOldCount
      , veryOldWarned := decide (0 < veryOldCount) }

/-- The columns processed by check 7 (lines 189-190): every table column
whose name matches a date keyword. -/
def dateProcessedCols (t : Table) : List String :=
  (t.cols.map (fun p => p.1)).filter (fun n => nameMatches dateKeywords n)

/-- Check 7 in full (lines 189-223): one item per processed column. -/
def dateRun (now : PDate) (t : Table) : List (String × CheckItem DateFinding) :=
  (dateProcessedCols t).map (fun c => (c, dateStep now t.rowCount c (t.colD c)))

/-- The numeric view of a table column for the Series arithmetic of check 9
(cost columns hold numbers and nulls). -/
def colQ (t : Table) (name : String) : List (Option ℚ) := (t.colD name).map cellNum

/-- A numeric series written back into table cells (`df[c] = series`). -/
def qCells (l : List (Option ℚ)) : List Cell :=
  l.map (fun o =>
    match o with
    | some q => Cell.num q
    | none => Cell.null)

/-- The four columns required by the total-cost rule (line 285). -/
def logicalCostCols : List String :=
  ["Total Cost ($)", "Reservation Cost ($)", "Packages Cost ($)", "Add Ons Cost ($)"]

/-- The packages mask of line 279 for one cell: non-null and not the empty
string. -/
def packagesMaskCell : Cell → Bool
  | Cell.null => false
  | Cell.str s => !(s == "")
  | Cell.num _ => true

/-- `cell == 0` for the packages-cost comparison of line 280. -/
def costIsZero : Cell → Bool
  | Cell.num q => q == 0
  | _ => false

/-- The packages-cost rule (lines 278-282): rows with packages but exactly
zero packages cost, when both columns exist.  Read-only. -/
def packagesZeroCostCount (t : Table) : Option ℕ :=
  if t.hasCol "Packages" && t.hasCol "Packages Cost ($)" then
    some ((List.zip (t.colD "Packages") (t.colD "Packages Cost ($)")).countP
      (fun pc => packagesMaskCell pc.1 && costIsZero pc.2))
  else none

/-- Check 9 (lines 275-297).  When all four cost columns are present the
check computes the total-cost rule and writes the two derived columns
`Calculated Total` and `Cost Difference` back into the shared table (the
code assigns `Calculated Total` twice — base sum, then minus promo — which
nets to the final calculated series, the intermediate state being invisible
to every other check since check 9 is straight-line).  The returned table
is the table every later read sees. -/
def logicalCheck (t : Table) : Option CostReport × Table :=
  if logicalCostCols.all (fun n => t.hasCol n) then
    let r := costCheck (colQ t "Total Cost ($)") (colQ t "Reservation Cost ($)")
      (colQ t "Packages Cost ($)") (colQ t "Add Ons Cost ($)")
      (if t.hasCol "Promo Code Discount ($)" then some (colQ t "Promo Code Discount ($)")
       else none)
    let t1 := t.setCol "Calculated Total" (qCells r.calcTotal)
    let t2 := t1.setCol "Cost Difference" (qCells r.diff)
    (some r, t2)
  else (none, t)

/-- The optional identifier duplicate count (lines 107-113 and 318-319):
present only when the column exists. -/
def idDupCountOpt (t : Table) (name : String) : Option ℕ :=
  if t.hasCol name then some (idDuplicateCount (t.colD name)) else none

/-- The whole audit in program order: checks 3-8 read the table as loaded,
check 9 returns the (possibly extended) table, and the summary (lines
299-319) re-reads `Booking ID` from that final table. -/
structure AuditReport where
  missing : List (String × ℕ × NpVal)
  overallPct : NpVal
  dupRowCount : ℕ
  dupRowPct : NpVal
  bookingDupes : Option ℕ
  reservationDupes : Option ℕ
  outliers : List (String × CheckItem OutFinding)
  categories : List (String × CatFinding)
  dates : List (String × CheckItem DateFinding)
  numeric : List (String × CheckItem NumFinding)
  packagesZeroCost : Option ℕ
  costReport : Option CostReport
  summaryBookingDupes : Option ℕ
  finalTable : Table

/-- `analyze_data_quality` after loading: the checks in program order. -/
def audit (now : PDate) (t : Table) : AuditReport :=
  let lr := logicalCheck t
  { missing := missingPerColumn t
  , overallPct := overallMissingPct t
  , dupRowCount := dfDuplicateRowCount t.rows
  , dupRowPct := duplicateRowPct t
  , bookingDupes := idDupCountOpt t "Booking ID"
  , reservationDupes := idDupCountOpt t "Reservation ID"
  , outliers := outlierRun t
  , categories := catRun t
  , dates := dateRun now t
  , numeric := numericRun t
  , packagesZeroCost := packagesZeroCostCount t
  , costReport := lr.1
  , summaryBookingDupes := idDupCountOpt lr.2 "Booking ID"
  , finalTable := lr.2 }


lemma find?_map_setCol (cols : List (String × List Cell)) (name m : String)
    (cells : List Cell) (h : m ≠ name) :
    (cols.map (fun p => if p.1 == name then (name, cells) else p)).find?
        (fun p => p.1 == m)
      = cols.find? (fun p => p.1 == m) := by
  induction cols with
  | nil => rfl
  | cons p ps ih =>
    by_cases hp : p.1 = name
    · have h1 : (if p.1 == name then (name, cells) else p) = (name, cells) := by
        rw [if_pos (by simp [hp])]
      have h2 : ((name, cells).1 == m) = false := by
        simp only [beq_eq_false_iff_ne, ne_eq]
        exact fun hc => h hc.symm
      have h3 : (p.1 == m) = false := by
        simp only [beq_eq_false_iff_ne, ne_eq, hp]
        exact fun hc => h hc.symm
      rw [List.map_cons, h1, List.find?_cons_of_neg _ (by simp [h2]),
        List.find?_cons_of_neg _ (by simp [h3])]
      exact ih
    · have h1 : (if p.1 == name then (name, cells) else p) = p := by
        rw [if_neg (by simp [hp])]
      rw [List.map_cons, h1]
      by_cases hm : p.1 = m
      · rw [List.find?_cons_of_pos _ (by simp [hm]), List.find?_cons_of_pos _ (by simp [hm])]
      · rw [List.find?_cons_of_neg _ (by simp [hm]), List.find?_cons_of_neg _ (by simp [hm])]
        exact ih

lemma find?_map_setCol_self (cols : List (String × List Cell)) (name : String)
    (cells : List Cell) :
    (cols.map (fun p => if p.1 == name then (name, cells) else p)).find?
        (fun p => p.1 == name)
      = (cols.find? (fun p => p.1 == name)).map (fun _ => (name, cells)) := by
  induction cols with
  | nil => rfl
  | cons p ps ih =>
    by_cases hp : p.1 = name
    · have h1 : (if p.1 == name then (name, cells) else p) = (name, cells) := by
        rw [if_pos (by simp [hp])]
      rw [List.map_cons, h1, List.find?_cons_of_pos _ (by simp),
        List.find?_cons_of_pos _ (by simp [hp])]
      rfl
    · have h1 : (if p.1 == name then (name, cells) else p) = p := by
        rw [if_neg (by simp [hp])]
      rw [List.map_cons, h1, List.find?_cons_of_neg _ (by simp [hp]),
        List.find?_cons_of_neg _ (by simp [hp])]
      exact ih

lemma getCol_setCol_ne (t : Table) (name m : String) (cells : List Cell)
    (h : m ≠ name) : (t.setCol name cells).getCol m = t.getCol m := by
  unfold Table.setCol Table.getCol
  by_cases hc : t.hasCol name
  · rw [if_pos hc]
    simp only
    rw [find?_map_setCol _ _ _ _ h]
  · rw [if_neg hc]
    simp only
    rw [List.find?_append]
    have h2 : ((name, cells).1 == m) = false := by
      simp only [beq_eq_false_iff_ne, ne_eq]
      exact fun hcc => h hcc.symm
    have hsingle : ([(name, cells)].find? (fun p => p.1 == m)) = none := by
      rw [List.find?_cons_of_neg _ (by simp [h2]), List.find?_nil]
    rw [hsingle, Option.or_none]

lemma getCol_setCol_self (t : Table) (name : String) (cells : List Cell) :
    (t.setCol name cells).getCol name = some cells := by
  unfold Table.setCol Table.getCol
  by_cases hc : t.hasCol name
  · rw [if_pos hc]
    simp only
    rw [find?_map_setCol_self]
    unfold Table.hasCol at hc
    rw [Option.isSome_iff_exists] at hc
    obtain ⟨q, hq⟩ := hc
    rw [hq]
    rfl
  · rw [if_neg hc]
    simp only
    rw [List.find?_append]
    have hnone : t.cols.find? (fun p => p.1 == name) = none := by
      unfold Table.hasCol at hc
      rcases hfind : t.cols.find? (fun p => p.1 == name) with _ | q
      · exact hfind
      · exact absurd (by rw [hfind]; rfl) hc
    rw [hnone, Option.none_or, List.find?_cons_of_pos _ (by simp)]
    rfl


lemma hasCol_eq_getCol_isSome (t : Table) (n : String) :
    t.hasCol n = (t.getCol n).isSome := by
  unfold Table.hasCol Table.getCol
  rcases hfind : t.cols.find? (fun p => p.1 == n) with _ | q
  · rw [hfind]
    rfl
  · rw [hfind]
    rfl

/-- C9 (amended): checks 3-8 read the table exactly as loaded; the
logical-consistency check is the only one that writes, and it only sets the
two derived columns `Calculated Total` and `Cost Difference` (adding them
when absent, overwriting pre-existing columns of those names): every column
under any other name is unchanged, a table missing one of the four cost
columns is returned untouched, and the summary's re-read of `Booking ID`
from the final table sees the original column, so no check other than the
logical-consistency check reads the two derived columns. -/
theorem C9_mutation_scoped_to_logical_check :
    (∀ (now : PDate) (t : Table),
      (audit now t).missing = missingPerColumn t ∧
      (audit now t).dupRowCount = dfDuplicateRowCount t.rows ∧
      (audit now t).bookingDupes = idDupCountOpt t "Booking ID" ∧
      (audit now t).outliers = outlierRun t ∧
      (audit now t).categories = catRun t ∧
      (audit now t).dates = dateRun now t ∧
      (audit now t).numeric = numericRun t) ∧
    (∀ (t : Table) (name : String),
      name ≠ "Calculated Total" → name ≠ "Cost Difference" →
      ((logicalCheck t).2).getCol name = t.getCol name) ∧
    (∀ t : Table, logicalCostCols.all (fun n => t.hasCol n) = false →
      (logicalCheck t).2 = t) ∧
    (∀ t : Table, logicalCostCols.all (fun n => t.hasCol n) = true →
      ((logicalCheck t).2).getCol "Cost Difference"
          = some (qCells (((logicalCheck t).1.getD ⟨[], [], [], none⟩).diff)) ∧
      ((logicalCheck t).2).getCol "Calculated Total"
          = some (qCells (((logicalCheck t).1.getD ⟨[], [], [], none⟩).calcTotal))) ∧
    (∀ (now : PDate) (t : Table),
      (audit now t).summaryBookingDupes = idDupCountOpt t "Booking ID") := by
  have hframe : ∀ (t : Table) (name : String),
      name ≠ "Calculated Total" → name ≠ "Cost Difference" →
      ((logicalCheck t).2).getCol name = t.getCol name := by
    intro t name h1 h2
    unfold logicalCheck
    by_cases hall : logicalCostCols.all (fun n => t.hasCol n)
    · rw [if_pos hall]
      simp only
      rw [getCol_setCol_ne _ _ _ _ h2, getCol_setCol_ne _ _ _ _ h1]
    · rw [if_neg hall]
  refine ⟨?_, hframe, ?_, ?_, ?_⟩
  · intro now t
    exact ⟨rfl, rfl, rfl, rfl, rfl, rfl, rfl⟩
  · intro t hall
    unfold logicalCheck
    rw [if_neg (by simp [hall])]
  · intro t hall
    unfold logicalCheck
    rw [if_pos hall]
    simp only [Option.getD_some]
    constructor
    · rw [getCol_setCol_self]
    · rw [getCol_setCol_ne _ _ _ _ (by decide), getCol_setCol_self]
  · intro now t
    show idDupCountOpt (logicalCheck t).2 "Booking ID" = idDupCountOpt t "Booking ID"
    have hg : ((logicalCheck t).2).getCol "Booking ID" = t.getCol "Booking ID" :=
      hframe t "Booking ID" (by decide) (by decide)
    unfold idDupCountOpt Table.colD
    rw [hasCol_eq_getCol_isSome, hasCol_eq_getCol_isSome, hg]

/-- Counterexample to C9 as stated: on a table that already has a column
named `Calculated Total` (value 999), the logical-consistency check does
not merely add derived columns — it overwrites that pre-existing column
with the calculated total 125, so a pre-existing column's values change. -/
theorem C9_mutation_counterexample :
    (Table.mk 1 [("Total Cost ($)", [Cell.num 130]),
      ("Reservation Cost ($)", [Cell.num 100]),
      ("Packages Cost ($)", [Cell.num 20]),
      ("Add Ons Cost ($)", [Cell.num 5]),
      ("Calculated Total", [Cell.num 999])]).getCol "Calculated Total"
      = some [Cell.num 999] ∧
    ((logicalCheck (Table.mk 1 [("Total Cost ($)", [Cell.num 130]),
      ("Reservation Cost ($)", [Cell.num 100]),
      ("Packages Cost ($)", [Cell.num 20]),
      ("Add Ons Cost ($)", [Cell.num 5]),
      ("Calculated Total", [Cell.num 999])])).2).getCol "Calculated Total"
      = some [Cell.num 125] := by
  constructor
  · rfl
  · unfold logicalCheck
    rw [if_pos (by decide)]
    simp only
    rw [getCol_setCol_ne _ _ _ _ (by decide), getCol_setCol_self]
    have h1 : colQ (Table.mk 1 [("Total Cost ($)", [Cell.num 130]),
        ("Reservation Cost ($)", [Cell.num 100]),
        ("Packages Cost ($)", [Cell.num 20]),
        ("Add Ons Cost ($)", [Cell.num 5]),
        ("Calculated Total", [Cell.num 999])]) "Reservation Cost ($)" = [some 100] := rfl
    have h2 : colQ (Table.mk 1 [("Total Cost ($)", [Cell.num 130]),
        ("Reservation Cost ($)", [Cell.num 100]),
        ("Packages Cost ($)", [Cell.num 20]),
        ("Add Ons Cost ($)", [Cell.num 5]),
        ("Calculated Total", [Cell.num 999])]) "Packages Cost ($)" = [some 20] := rfl
    have h3 : colQ (Table.mk 1 [("Total Cost ($)", [Cell.num 130]),
        ("Reservation Cost ($)", [Cell.num 100]),
        ("Packages Cost ($)", [Cell.num 20]),
        ("Add Ons Cost ($)", [Cell.num 5]),
        ("Calculated Total", [Cell.num 999])]) "Add Ons Cost ($)" = [some 5] := rfl
    have hpromo : (Table.mk 1 [("Total Cost ($)", [Cell.num 130]),
        ("Reservation Cost ($)", [Cell.num 100]),
        ("Packages Cost ($)", [Cell.num 20]),
        ("Add Ons Cost ($)", [Cell.num 5]),
        ("Calculated Total", [Cell.num 999])]).hasCol "Promo Code Discount ($)"
        = false := rfl
    rw [h1, h2, h3, hpromo]
    rw [if_neg (by simp)]
    rw [costCheck_calcTotal_none]
    norm_num [List.zipWith, optAdd, qCells]

/-- Witness for the amended C9: the frame and summary conclusions at a
concrete one-column table. -/
theorem C9_mutation_scoped_to_logical_check_witness :
    ((logicalCheck (Table.mk 1 [("Booking ID", [Cell.num 7])])).2).getCol "Booking ID"
        = (Table.mk 1 [("Booking ID", [Cell.num 7])]).getCol "Booking ID" ∧
    (audit ⟨2025, 1, 1⟩ (Table.mk 1 [("Booking ID", [Cell.num 7])])).summaryBookingDupes
        = idDupCountOpt (Table.mk 1 [("Booking ID", [Cell.num 7])]) "Booking ID" :=
  ⟨C9_mutation_scoped_to_logical_check.2.1 (Table.mk 1 [("Booking ID", [Cell.num 7])])
      "Booking ID" (by decide) (by decide),
   C9_mutation_scoped_to_logical_check.2.2.2.2 ⟨2025, 1, 1⟩
      (Table.mk 1 [("Booking ID", [Cell.num 7])])⟩


lemma strContainsSub_append_mid (pre mid post : String) :
    strContainsSub (pre ++ mid ++ post) mid = true := by
  unfold strContainsSub
  simp only [decide_eq_true_eq, String.data_append]
  exact List.infix_append _ _ _

lemma strContains_outlierSkip (c e : String) :
    strContainsSub (outlierSkipMsg c e) c = true := by
  have h : outlierSkipMsg c e
      = ("Could not analyze outliers for '" ++ c) ++ ("': " ++ e) := by
    unfold outlierSkipMsg
    rw [String.append_assoc]
  rw [h]
  unfold strContainsSub
  simp only [decide_eq_true_eq, String.data_append]
  exact List.infix_append _ _ _

lemma strContains_numericSkip (c e : String) :
    strContainsSub (numericSkipMsg c e) c = true := by
  have h : numericSkipMsg c e
      = ("Could not analyze numeric field '" ++ c) ++ ("': " ++ e) := by
    unfold numericSkipMsg
    rw [String.append_assoc]
  rw [h]
  unfold strContainsSub
  simp only [decide_eq_true_eq, String.data_append]
  exact List.infix_append _ _ _

lemma strContains_dateSkip (c : String) :
    strContainsSub ("'" ++ c ++ "' could not be converted to dates - invalid format") c
      = true :=
  strContainsSub_append_mid _ _ _

/-- C3: in the outlier-detection, date-range-validation and numeric-fields
checks, every processed column yields exactly one item, computed from that
column's data alone (so one column's failure cannot affect another's item);
every item is either an analyzed finding or a skip message that names the
column; and in the full audit each of the three checks equals its
standalone run, so a failure inside one check never prevents a subsequent
check from running.  All embedded runs are total functions: the code's
per-column try/except is modelled by the `Except`-valued step whose error
is converted to the skip item, never propagated. -/
theorem C3_per_column_failures_contained :
    (∀ (t : Table) (c : String), c ∈ outlierProcessedCols t →
      (c, runExcept (outlierSkipMsg c) (outlierStep t.rowCount (t.colD c)))
        ∈ outlierRun t) ∧
    (∀ (t : Table) (c : String) (item : CheckItem OutFinding),
      (c, item) ∈ outlierRun t →
      (∃ f, item = CheckItem.analyzed f) ∨
      (∃ e, item = CheckItem.skip (outlierSkipMsg c e) ∧
        strContainsSub (outlierSkipMsg c e) c = true)) ∧
    (∀ (now : PDate) (t : Table) (c : String), c ∈ dateProcessedCols t →
      (c, dateStep now t.rowCount c (t.colD c)) ∈ dateRun now t) ∧
    (∀ (now : PDate) (t : Table) (c : String) (item : CheckItem DateFinding),
      (c, item) ∈ dateRun now t →
      (∃ f, item = CheckItem.analyzed f) ∨
      (∃ msg, item = CheckItem.skip msg ∧ strContainsSub msg c = true)) ∧
    (∀ (t : Table) (c : String), c ∈ numericProcessedCols t →
      (c, runExcept (numericSkipMsg c) (numericStep t.rowCount c (t.colD c)))
        ∈ numericRun t) ∧
    (∀ (t : Table) (c : String) (item : CheckItem NumFinding),
      (c, item) ∈ numericRun t →
      (∃ f, item = CheckItem.analyzed f) ∨
      (∃ e, item = CheckItem.skip (numericSkipMsg c e) ∧
        strContainsSub (numericSkipMsg c e) c = true)) ∧
    (∀ (now : PDate) (t : Table),
      (audit now t).outliers = outlierRun t ∧
      (audit now t).dates = dateRun now t ∧
      (audit now t).numeric = numericRun t) := by
  refine ⟨?_, ?_, ?_, ?_, ?_, ?_, ?_⟩
  · intro t c hc
    exact List.mem_map_of_mem _ hc
  · intro t c item hmem
    rcases List.mem_map.mp hmem with ⟨c2, hc2, heq⟩
    have hcc : c2 = c := congrArg Prod.fst heq
    have hit : runExcept (outlierSkipMsg c2) (outlierStep t.rowCount (t.colD c2)) = item :=
      congrArg Prod.snd heq
    subst hcc
    rcases hstep : outlierStep t.rowCount (t.colD c2) with e | f
    · rw [hstep] at hit
      exact Or.inr ⟨e, hit.symm, strContains_outlierSkip c2 e⟩
    · rw [hstep] at hit
      exact Or.inl ⟨f, hit.symm⟩
  · intro now t c hc
    exact List.mem_map_of_mem _ hc
  · intro now t c item hmem
    rcases List.mem_map.mp hmem with ⟨c2, hc2, heq⟩
    have hcc : c2 = c := congrArg Prod.fst heq
    have hit : dateStep now t.rowCount c2 (t.colD c2) = item := congrArg Prod.snd heq
    subst hcc
    rw [dateStep] at hit
    by_cases he : (((t.colD c2).map parseDate).filterMap id).isEmpty
    · rw [if_pos he] at hit
      exact Or.inr ⟨_, hit.symm, strContains_dateSkip c2⟩
    · rw [if_neg he] at hit
      exact Or.inl ⟨_, hit.symm⟩
  · intro t c hc
    exact List.mem_map_of_mem _ hc
  · intro t c item hmem
    rcases List.mem_map.mp hmem with ⟨c2, hc2, heq⟩
    have hcc : c2 = c := congrArg Prod.fst heq
    have hit : runExcept (numericSkipMsg c2) (numericStep t.rowCount c2 (t.colD c2)) = item :=
      congrArg Prod.snd heq
    subst hcc
    rcases hstep : numericStep t.rowCount c2 (t.colD c2) with e | f
    · rw [hstep] at hit
      exact Or.inr ⟨e, hit.symm, strContains_numericSkip c2 e⟩
    · rw [hstep] at hit
      exact Or.inl ⟨f, hit.symm⟩
  · intro now t
    exact ⟨rfl, rfl, rfl⟩

/-- Witness for C3 at concrete tables: a processed outlier column gets its
item; a currency column whose value cannot parse produces the numeric skip
item while the table's other numeric column still gets its own item; and
an unparseable date column produces the invalid-format skip. -/
theorem C3_per_column_failures_contained_witness :
    (("Party Size", runExcept (outlierSkipMsg "Party Size")
        (outlierStep 1 [Cell.num 1]))
      ∈ outlierRun (Table.mk 1 [("Party Size", [Cell.num 1])])) ∧
    (("Total Cost ($)", CheckItem.skip (numericSkipMsg "Total Cost ($)"
        "could not convert string to float: 'x'"))
      ∈ numericRun (Table.mk 1 [("Total Cost ($)", [Cell.str "$x"]),
          ("Reservation Cost ($)", [Cell.num 5])])) ∧
    (("Reservation Cost ($)", runExcept (numericSkipMsg "Reservation Cost ($)")
        (numericStep 1 "Reservation Cost ($)" [Cell.num 5]))
      ∈ numericRun (Table.mk 1 [("Total Cost ($)", [Cell.str "$x"]),
          ("Reservation Cost ($)", [Cell.num 5])])) ∧
    (("Date", CheckItem.skip "'Date' could not be converted to dates - invalid format")
      ∈ dateRun ⟨2025, 1, 1⟩ (Table.mk 1 [("Date", [Cell.str "not-a-date"])])) :=
  ⟨C3_per_column_failures_contained.1 (Table.mk 1 [("Party Size", [Cell.num 1])])
      "Party Size" (by decide),
   C3_per_column_failures_contained.2.2.2.2.1
      (Table.mk 1 [("Total Cost ($)", [Cell.str "$x"]),
        ("Reservation Cost ($)", [Cell.num 5])]) "Total Cost ($)" (by decide),
   C3_per_column_failures_contained.2.2.2.2.1
      (Table.mk 1 [("Total Cost ($)", [Cell.str "$x"]),
        ("Reservation Cost ($)", [Cell.num 5])]) "Reservation Cost ($)" (by decide),
   C3_per_column_failures_contained.2.2.1 ⟨2025, 1, 1⟩
      (Table.mk 1 [("Date", [Cell.str "not-a-date"])]) "Date" (by decide)⟩

end DataQuality




